import Mathlib

/-!
# Verification of the water-bill extraction and reconciliation pipeline

Shallow embedding of the core logic of the CommercialEnergyWaterBillAutomation
repository: the district classifiers and field extractors
(`src/extractors/base.py`, `src/extractors/nmwd.py`, `src/extractors/mmwd.py`),
the filename generator (`src/processors/file_renamer.py`) and the spreadsheet
reconciler (`src/processors/excel_processor.py`).

Python strings are modelled by `String`, Python `float` currency values by `ℚ`
(all values in the pipeline arise from parsing decimal text), `None`-able
values by `Option`, and worksheet cells by `Option CellVal`.  The regular
expressions used by the extractors are embedded via a small backtracking
matcher (`RE`, `mrun`) whose result list enumerates candidate matches in the
same priority order as Python's `re` module (leftmost position first; within a
position, greedy/lazy and alternation priority order); the first element is
the match `re.search` returns.
-/

/-- Python `sub in s` substring test, on character lists. -/
def containsSubL (sub : List Char) : List Char → Bool
  | [] => sub.isEmpty
  | c :: rest => sub.isPrefixOf (c :: rest) || containsSubL sub rest

/-- Python `sub in s` substring test. -/
def containsSub (sub s : String) : Bool :=
  containsSubL sub.toList s.toList

/-- Python `\s` on ASCII text: space, tab, newline, carriage return,
vertical tab, form feed. -/
def isSpacePy (c : Char) : Bool :=
  c = ' ' || c = '\t' || c = '\n' || c = '\r' ||
    c = Char.ofNat 11 || c = Char.ofNat 12

/-- Numeric value of a digit string (used after an all-digit check; models
Python `int` on digit strings). -/
def digitsVal (l : List Char) : Nat :=
  l.foldl (fun acc c => acc * 10 + (c.toNat - 48)) 0

/-- Python `str.upper()` (ASCII). -/
def pyUpper (s : String) : String :=
  String.mk (s.toList.map Char.toUpper)

/-- Python `str.strip()` (ASCII whitespace). -/
def pyStrip (s : String) : String :=
  String.mk (((s.toList.dropWhile isSpacePy).reverse.dropWhile isSpacePy).reverse)

/-- Python `s.replace(str(c), "")`. -/
def removeChar (s : String) (c : Char) : String :=
  String.mk (s.toList.filter fun c' => c' ≠ c)

/-- Python `s.startswith(p)`. -/
def startsWithS (p s : String) : Bool :=
  p.toList.isPrefixOf s.toList

/-- Python `s.endswith(p)`. -/
def endsWithS (p s : String) : Bool :=
  p.toList.reverse.isPrefixOf s.toList.reverse

/-- Python `s.split(str(sep))` (single-character separator). -/
def splitOnCharGo (sep : Char) : List Char → List Char → List String
  | [], acc => [String.mk acc.reverse]
  | c :: rest, acc =>
    if c = sep then String.mk acc.reverse :: splitOnCharGo sep rest []
    else splitOnCharGo sep rest (c :: acc)

def splitOnChar (sep : Char) (s : String) : List String :=
  splitOnCharGo sep s.toList []

/-- First `n` characters of a string. -/
def strTake (s : String) (n : Nat) : String :=
  String.mk (s.toList.take n)

/-- `re.sub(r"\D", "", s)`: keep only decimal digits. -/
def digitsOnly (s : String) : String :=
  String.mk (s.toList.filter Char.isDigit)

/-- Python `a or b` for optional strings: `a` unless it is `None` or empty. -/
def pyOrS (a b : Option String) : Option String :=
  match a with
  | some s => if s = "" then b else some s
  | none => b

/-- Python `a or d` for an optional string against a string default. -/
def pyStrOr (a : Option String) (d : String) : String :=
  match a with
  | some s => if s = "" then d else s
  | none => d

/-- Python `a or b` for optional integers: `a` unless it is `None` or `0`. -/
def pyOrI (a b : Option Int) : Option Int :=
  match a with
  | some n => if n = 0 then b else some n
  | none => b

/-- Python `str.splitlines` restricted to the line breaks that occur in the
modelled texts: `\n`, `\r`, `\r\n` (no trailing empty line). -/
def splitLinesGo : List Char → List Char → List String
  | [], acc => if acc.isEmpty then [] else [String.mk acc.reverse]
  | '\r' :: '\n' :: rest, acc => String.mk acc.reverse :: splitLinesGo rest []
  | '\r' :: rest, acc => String.mk acc.reverse :: splitLinesGo rest []
  | '\n' :: rest, acc => String.mk acc.reverse :: splitLinesGo rest []
  | c :: rest, acc => splitLinesGo rest (c :: acc)

def splitLines (s : String) : List String :=
  splitLinesGo s.toList []

/-- Python `float(s)` on the decimal strings produced by the extractors:
optional sign, digits with an optional fractional part (at least one digit
overall); anything else raises `ValueError`, modelled as `none`.  The value
`±(intpart.fracpart)` is represented exactly as the rational
`±(intpart * 10^k + fracpart) / 10^k`. -/
def parsePyFloat (s : String) : Option ℚ :=
  let l := s.toList
  let (neg, l) : Bool × List Char :=
    match l with
    | '-' :: rest => (true, rest)
    | '+' :: rest => (false, rest)
    | _ => (false, l)
  let intPart := l.takeWhile Char.isDigit
  let l := l.dropWhile Char.isDigit
  match l with
  | [] =>
    if intPart.isEmpty then none
    else
      let n : Nat := digitsVal intPart
      some (mkRat (if neg then -(n : Int) else (n : Int)) 1)
  | '.' :: rest =>
    let fracPart := rest.takeWhile Char.isDigit
    if ¬ (rest.dropWhile Char.isDigit).isEmpty then none
    else if intPart.isEmpty ∧ fracPart.isEmpty then none
    else
      let scale : Nat := 10 ^ fracPart.length
      let n : Nat := digitsVal intPart * scale + digitsVal fracPart
      some (mkRat (if neg then -(n : Int) else (n : Int)) scale)
  | _ => none

/-- Python `int(s)` on comma-stripped digit strings (`_extract_number`). -/
def parsePyInt (s : String) : Option Int :=
  let l := s.toList
  let (sign, l) : Int × List Char :=
    match l with
    | '-' :: rest => (-1, rest)
    | '+' :: rest => (1, rest)
    | _ => (1, l)
  if l.isEmpty ∨ ¬ l.all Char.isDigit then none
  else some (sign * (digitsVal l : Int))

/-! ## A small backtracking regular-expression matcher

Enough of Python `re` to embed the patterns in the source: character classes,
case-insensitive literals, concatenation, prioritized alternation, greedy and
lazy star (bodies of all starred subpatterns in the source consume at least
one character), greedy option, bounded repetition, capture groups and
lookahead. -/

/-- Capture list: pairs of group number and captured text. -/
abbrev Caps := List (Nat × String)

inductive RE where
  | eps : RE
  | cls (p : Char → Bool) : RE
  | seq (a b : RE) : RE
  | alt (a b : RE) : RE
  | starG (a : RE) : RE
  | starL (a : RE) : RE
  | optG (a : RE) : RE
  | group (k : Nat) (a : RE) : RE
  | look (a : RE) : RE

/-- Structural size of a pattern, used to compute a sufficient fuel bound. -/
def reSize : RE → Nat
  | .eps => 1
  | .cls _ => 1
  | .seq a b => reSize a + reSize b + 1
  | .alt a b => reSize a + reSize b + 1
  | .starG a => reSize a + 1
  | .starL a => reSize a + 1
  | .optG a => reSize a + 1
  | .group _ a => reSize a + 1
  | .look a => reSize a + 1

/-- The text captured between a suffix `l` of the subject and a later suffix
`l1`. -/
def capBetween (l l1 : List Char) : String :=
  String.mk (l.take (l.length - l1.length))

/-- All ways a pattern can match a prefix of `l`, as pairs of remaining
suffix and captures, in Python `re` priority order (first element = the
match the backtracking engine commits to). -/
def mrun (fuel : Nat) (re : RE) (l : List Char) : List (List Char × Caps) :=
  match fuel with
  | 0 => []
  | fuel + 1 =>
    match re with
    | .eps => [(l, [])]
    | .cls p =>
      match l with
      | [] => []
      | c :: rest => if p c then [(rest, [])] else []
    | .seq a b =>
      (mrun fuel a l).flatMap fun r1 =>
        (mrun fuel b r1.1).map fun r2 => (r2.1, r1.2 ++ r2.2)
    | .alt a b => mrun fuel a l ++ mrun fuel b l
    | .starG a =>
      (((mrun fuel a l).filter fun r => r.1.length < l.length).flatMap fun r1 =>
        (mrun fuel (.starG a) r1.1).map fun r2 => (r2.1, r1.2 ++ r2.2))
        ++ [(l, [])]
    | .starL a =>
      (l, []) ::
        (((mrun fuel a l).filter fun r => r.1.length < l.length).flatMap fun r1 =>
          (mrun fuel (.starL a) r1.1).map fun r2 => (r2.1, r1.2 ++ r2.2))
    | .optG a => mrun fuel a l ++ [(l, [])]
    | .group k a =>
      (mrun fuel a l).map fun r => (r.1, r.2 ++ [(k, capBetween l r.1)])
    | .look a => if (mrun fuel a l).isEmpty then [] else [(l, [])]

/-- Fuel sufficient for `mrun` on subject `l`: every recursive call either
shrinks the pattern or (for a star iteration) the subject. -/
def fuelFor (re : RE) (l : List Char) : Nat :=
  (reSize re + 1) * (l.length + 2) + 2

/-- A whole-match result: the matched text and the captures. -/
structure MatchRes where
  whole : String
  caps : Caps
deriving Repr, DecidableEq

/-- Python `group(k)` of a match (`none` if the group did not participate). -/
def MatchRes.groupN (m : MatchRes) (k : Nat) : Option String :=
  (m.caps.find? fun p => p.1 = k).map Prod.snd

/-- Try a match anchored at the current position. -/
def matchHere (re : RE) (l : List Char) : Option MatchRes :=
  match (mrun (fuelFor re l) re l).head? with
  | some r => some ⟨capBetween l r.1, r.2⟩
  | none => none

/-- Python `re.search`: leftmost match position wins; at a position the
backtracking priority order decides. -/
def searchGo (re : RE) : List Char → Option MatchRes
  | [] => matchHere re []
  | c :: rest =>
    match matchHere re (c :: rest) with
    | some m => some m
    | none => searchGo re rest

def reSearch (re : RE) (s : String) : Option MatchRes :=
  searchGo re s.toList

/-- Python `re.finditer`/`re.findall` whole-match texts: repeated leftmost
non-overlapping matches (all source patterns match at least one character). -/
def findAllGo (fuel : Nat) (re : RE) (l : List Char) : List MatchRes :=
  match fuel with
  | 0 => []
  | fuel + 1 =>
    match l with
    | [] =>
      match matchHere re [] with
      | some m => [m]
      | none => []
    | c :: rest =>
      match matchHere re (c :: rest) with
      | some m =>
        if m.whole.length = 0 then findAllGo fuel re rest
        else m :: findAllGo fuel re ((c :: rest).drop m.whole.length)
      | none => findAllGo fuel re rest

def findAll (re : RE) (s : String) : List MatchRes :=
  findAllGo (s.length + 1) re s.toList

/-! ### Pattern construction helpers -/

/-- Case-insensitive single character (Python `re.IGNORECASE` on ASCII). -/
def chCI (c : Char) : RE :=
  .cls fun c' => c'.toLower = c.toLower

/-- Case-sensitive single character. -/
def chCS (c : Char) : RE :=
  .cls fun c' => c' = c

def seqAll (rs : List RE) : RE :=
  match rs with
  | [] => .eps
  | r :: rest => .seq r (seqAll rest)

/-- Case-insensitive literal string. -/
def litCI (s : String) : RE :=
  seqAll (s.toList.map chCI)

/-- Case-sensitive literal string. -/
def litCS (s : String) : RE :=
  seqAll (s.toList.map chCS)

/-- `a{n}`: exactly `n` copies. -/
def repN : Nat → RE → RE
  | 0, _ => .eps
  | n + 1, a => .seq a (repN n a)

/-- `a{n,}`: at least `n` copies, greedy. -/
def repAtLeast (n : Nat) (a : RE) : RE :=
  .seq (repN n a) (.starG a)

/-- `a{1,2}` greedy. -/
def rep1to2 (a : RE) : RE :=
  .seq a (.optG a)

/-- `a{1,3}` greedy. -/
def rep1to3 (a : RE) : RE :=
  .seq a (.optG (.seq a (.optG a)))

/-- `a{2,4}` greedy. -/
def rep2to4 (a : RE) : RE :=
  .seq a (.seq a (.optG (.seq a (.optG a))))

/-- `a+` greedy. -/
def plusG (a : RE) : RE :=
  .seq a (.starG a)

/-- `a+?` lazy. -/
def plusL (a : RE) : RE :=
  .seq a (.starL a)

def reDigit : RE := .cls Char.isDigit

/-- `\s` (ASCII). -/
def reSpace : RE := .cls isSpacePy

/-- `\s*` greedy. -/
def spaceStar : RE := .starG reSpace

/-- `\s+` greedy. -/
def spacePlus : RE := plusG reSpace

/-! ## `src/extractors/base.py`: shared extraction helpers -/

/-- `BaseExtractor._extract_pattern`: first case-insensitive match, stripped
group 1 (`None` when the text is empty or nothing matches). -/
def extractPattern (text : String) (re : RE) : Option String :=
  if text = "" then none
  else
    match reSearch re text with
    | some m =>
      match m.groupN 1 with
      | some g => some (pyStrip g)
      | none => none
    | none => none

/-- The group-1 post-processing of `BaseExtractor._extract_currency`
(lines 74-84): strip thousands separators and dollar signs, parenthesized
amounts are negative, then `float`. -/
def parseCurrencyGroup (valueStr : String) : Option ℚ :=
  let v := pyStrip (removeChar (removeChar valueStr ',') '$')
  if startsWithS "(" v ∧ endsWithS ")" v then
    match parsePyFloat (String.mk ((v.toList.drop 1).dropLast)) with
    | some q => some (-q)
    | none => none
  else
    match parsePyFloat v with
    | some q => some q
    | none => none

/-- `BaseExtractor._extract_currency`. -/
def extractCurrency (text : String) (re : RE) : Option ℚ :=
  if text = "" then none
  else
    match reSearch re text with
    | some m =>
      match m.groupN 1 with
      | some g => parseCurrencyGroup g
      | none => none
    | none => none

/-- `BaseExtractor._extract_number`: group 1 with commas removed, as `int`. -/
def extractNumber (text : String) (re : RE) : Option Int :=
  if text = "" then none
  else
    match reSearch re text with
    | some m =>
      match m.groupN 1 with
      | some g => parsePyInt (removeChar g ',')
      | none => none
    | none => none

/-! ## District classifiers (`_is_nmwd_bill`, `_is_mmwd_bill`) -/

def strongNmwdIndicators : List String :=
  ["NORTH MARIN WATER DISTRICT", "NORTH MARIN"]

def strongMmwdIndicators : List String :=
  ["MARIN MUNICIPAL", "220 NELLEN AVENUE", "CORTE MADERA", "MARINWATER.ORG"]

/-- `any(indicator in text_upper for indicator in strong_nmwd_indicators)`. -/
def hasStrongNmwd (u : String) : Bool :=
  strongNmwdIndicators.any fun k => containsSub k u

def hasStrongMmwd (u : String) : Bool :=
  strongMmwdIndicators.any fun k => containsSub k u

/-- `NMWDExtractor._is_nmwd_bill` (nmwd.py lines 161-186). -/
def isNmwdBill (text : String) : Bool :=
  if text = "" then false
  else
    let u := pyUpper text
    let hasN := hasStrongNmwd u
    let hasM := hasStrongMmwd u
    if hasN && hasM then containsSub "NORTH MARIN" u
    else hasN && !hasM

/-- `MMWDExtractor._is_mmwd_bill` (mmwd.py lines 91-116). -/
def isMmwdBill (text : String) : Bool :=
  if text = "" then false
  else
    let u := pyUpper text
    let hasM := hasStrongMmwd u
    let hasN := hasStrongNmwd u
    if hasM && hasN then containsSub "MARIN MUNICIPAL" u
    else hasM && !hasN

/-! ## The concrete patterns of the two extractors -/

/-- `[A-Z0-9\-]` under `re.IGNORECASE`. -/
def isAcctChar (c : Char) : Bool :=
  c.isAlpha || c.isDigit || c = '-'

/-- `[:\s]*` greedy. -/
def colonSpaceStar : RE :=
  .starG (.cls fun c => c = ':' || isSpacePy c)

/-- `.` without `re.DOTALL`: any character but a newline. -/
def dotNoNL : RE :=
  .cls fun c => c != '\n'

/-- `.` with `re.DOTALL`. -/
def dotAll : RE :=
  .cls fun _ => true

/-- `(\d{2}/\d{2}/\d{4})` body. -/
def dateBody224 : RE :=
  seqAll [repN 2 reDigit, chCS '/', repN 2 reDigit, chCS '/', repN 4 reDigit]

/-- `(\d{1,2}/\d{1,2}/\d{2,4})` body. -/
def date1224 : RE :=
  seqAll [rep1to2 reDigit, chCS '/', rep1to2 reDigit, chCS '/', rep2to4 reDigit]

/-- `[-–]` (the text has already had Unicode dashes normalized to `-`). -/
def dashCls : RE :=
  .cls fun c => c = '-' || c = Char.ofNat 0x2013

/-- `\d{1,3}(?:,\d{3})*`. -/
def numWithCommas : RE :=
  .seq (rep1to3 reDigit) (.starG (.seq (chCS ',') (repN 3 reDigit)))

/-- nmwd.py line 41: `ACCOUNT(?:/CUSTOMER)? NUMBER[:\s]*([A-Z0-9\-]{6,})`. -/
def nmwdAcctPat1 : RE :=
  seqAll [litCI "ACCOUNT", .optG (litCI "/CUSTOMER"), litCI " NUMBER",
    colonSpaceStar, .group 1 (repAtLeast 6 (.cls isAcctChar))]

/-- nmwd.py line 42: `Customer Number[:\s]*([A-Z0-9\-]{6,})`. -/
def nmwdAcctPat2 : RE :=
  seqAll [litCI "Customer Number", colonSpaceStar,
    .group 1 (repAtLeast 6 (.cls isAcctChar))]

/-- nmwd.py line 45: `(\d{2}/\d{2}/\d{4})`. -/
def nmwdBillDatePat : RE :=
  .group 1 dateBody224

/-- nmwd.py line 48: `DUE DATE[^$]*(\d{2}/\d{2}/\d{4})`. -/
def nmwdDueDatePat : RE :=
  seqAll [litCI "DUE DATE", .starG (.cls fun c => c != '$'), .group 1 dateBody224]

/-- nmwd.py line 52: `SERVICE ADDRESS.*?(\d+[^,\n]*)`. -/
def nmwdAddressPat : RE :=
  seqAll [litCI "SERVICE ADDRESS", .starL dotNoNL,
    .group 1 (.seq (plusG reDigit) (.starG (.cls fun c => c != ',' && c != '\n')))]

/-- nmwd.py line 56: `CURRENT PERIOD:?\s*(\d{1,3}(?:,\d{3})*)`. -/
def nmwdUsagePat1 : RE :=
  seqAll [litCI "CURRENT PERIOD", .optG (chCS ':'), spaceStar, .group 1 numWithCommas]

/-- nmwd.py line 57: `(\d{1,3}(?:,\d{3})*)\s+GAL`. -/
def nmwdUsagePat2 : RE :=
  seqAll [.group 1 numWithCommas, spacePlus, litCI "GAL"]

/-- nmwd.py line 196 `money_pat`:
`\$?\s*\(?(?:\d{1,3}(?:,\d{3})*|\d+)(?:\.\d{2})?\)?`. -/
def moneyPat : RE :=
  seqAll [.optG (chCS '$'), spaceStar, .optG (chCS '('),
    .alt numWithCommas (plusG reDigit),
    .optG (.seq (chCS '.') (repN 2 reDigit)), .optG (chCS ')')]

/-- The part of the strict fallback pattern (nmwd.py lines 220-223) after the
`(?:^|\n)` anchor:
`\s*(?:TOTAL\s+(?:AMOUNT\s+)?DUE(?:\s+NOW)?)\s*[:\-]?\s*\$?\s*(\(?...\)?)`. -/
def nmwdStrictRest : RE :=
  seqAll [spaceStar, litCI "TOTAL", spacePlus, .optG (.seq (litCI "AMOUNT") spacePlus),
    litCI "DUE", .optG (.seq spacePlus (litCI "NOW")),
    spaceStar, .optG (.cls fun c => c = ':' || c = '-'), spaceStar,
    .optG (chCS '$'), spaceStar,
    .group 1 (seqAll [.optG (chCS '('), .alt numWithCommas (plusG reDigit),
      .optG (.seq (chCS '.') (repN 2 reDigit)), .optG (chCS ')')])]

/-- `re.search` of a `(?:^|\n)rest` pattern under `re.MULTILINE`: a match of
`rest` at the start of the text, or a match of `\n` followed by `rest`
anywhere.  This enumerates the same group-1 captures in the same order as
Python's scan, since `^` succeeds at an interior position exactly when the
preceding character is `\n`, in which case the `\n` branch already matched
one position earlier. -/
def searchBOL (rest : RE) (s : String) : Option MatchRes :=
  match matchHere rest s.toList with
  | some m => some m
  | none => reSearch (.seq (chCS '\n') rest) s

/-- mmwd.py line 31: `Customer Number:?\s*(\d+)`. -/
def mmwdAcctPat : RE :=
  seqAll [litCI "Customer Number", .optG (chCS ':'), spaceStar, .group 1 (plusG reDigit)]

/-- mmwd.py line 32: `Billing Date:?\s*(\d{2}/\d{2}/\d{4})`. -/
def mmwdBillDatePat : RE :=
  seqAll [litCI "Billing Date", .optG (chCS ':'), spaceStar, .group 1 dateBody224]

/-- mmwd.py line 34: `Current Charges Due By:?\s*(\d{2}/\d{2}/\d{4})`. -/
def mmwdDuePat : RE :=
  seqAll [litCI "Current Charges Due By", .optG (chCS ':'), spaceStar, .group 1 dateBody224]

/-- mmwd.py line 37: `TOTAL DUE:?\s*\$?([\d,]+\.?\d*)`. -/
def mmwdTotalPat : RE :=
  seqAll [litCI "TOTAL DUE", .optG (chCS ':'), spaceStar, .optG (chCS '$'),
    .group 1 (seqAll [plusG (.cls fun c => c.isDigit || c = ','),
      .optG (chCS '.'), .starG reDigit])]

/-- mmwd.py line 38: `Service Address:?\s+(.+?)(?=\n)`. -/
def mmwdAddrPat : RE :=
  seqAll [litCI "Service Address", .optG (chCS ':'), spacePlus,
    .group 1 (plusL dotNoNL), .look (chCS '\n')]

/-- mmwd.py line 42: `Water Use\s+Units\*\s+(\d+)`. -/
def mmwdUnitsPat1 : RE :=
  seqAll [litCI "Water Use", spacePlus, litCI "Units", chCS '*', spacePlus,
    .group 1 (plusG reDigit)]

/-- mmwd.py line 47: `(\d+)\s+(\d+(?:\s*1/2)?\")\s+(\d+)\s+(\d+)\s+(\d+)`
(case-sensitive; only group 5 is consumed). -/
def mmwdUnitsPat2 : RE :=
  seqAll [.group 1 (plusG reDigit), spacePlus,
    .group 2 (seqAll [plusG reDigit, .optG (.seq spaceStar (litCS "1/2")), chCS '"']),
    spacePlus, .group 3 (plusG reDigit), spacePlus, .group 4 (plusG reDigit),
    spacePlus, .group 5 (plusG reDigit)]

/-- mmwd.py lines 128-135: the `Meter Read Date` pattern. -/
def mmwdMeterPat : RE :=
  seqAll [litCI "Meter", spaceStar, litCI "Read", spaceStar, litCI "Date",
    spaceStar, .optG (.cls fun c => c = ':' || c = '-'), spaceStar,
    .starG (.cls fun c => c = '\n' || c = '\r' || isSpacePy c),
    .group 1 date1224, spaceStar, .alt (litCI "to") (chCS '-'), spaceStar,
    .group 2 date1224]

/-- mmwd.py lines 141-145: per-line fallback
`(\d{1,2}/\d{1,2}/\d{2,4})\s*(?:to|-)\s*(\d{1,2}/\d{1,2}/\d{2,4})`. -/
def dateRangePat : RE :=
  seqAll [.group 1 date1224, spaceStar, .alt (litCI "to") (chCS '-'), spaceStar,
    .group 2 date1224]

/-! ## Dates: `datetime.strptime` with the formats used by the source -/

def isLeapYear (y : Nat) : Bool :=
  (y % 4 = 0 && y % 100 != 0) || y % 400 = 0

def daysInMonth (y m : Nat) : Nat :=
  if m = 2 then (if isLeapYear y then 29 else 28)
  else if m = 4 ∨ m = 6 ∨ m = 9 ∨ m = 11 then 30
  else 31

/-- CPython `strptime` `%m`/`%d` field: one or two digits within bounds
(leading zero allowed, `0`/`00` rejected). -/
def parseField2 (s : String) (hi : Nat) : Option Nat :=
  let l := s.toList
  if (l.length = 1 ∨ l.length = 2) ∧ l.all Char.isDigit then
    let n := digitsVal l
    if 1 ≤ n ∧ n ≤ hi then some n else none
  else none

/-- `datetime.strptime(s, "%m/%d/%Y")` (CPython: `%Y` is exactly four
digits) followed by `datetime` validation of the day and `MINYEAR`. -/
def parseMDY4 (s : String) : Option (Nat × Nat × Nat) :=
  match splitOnChar '/' s with
  | [ms, ds, ys] =>
    match parseField2 ms 12, parseField2 ds 31 with
    | some m, some d =>
      if ys.length = 4 ∧ ys.toList.all Char.isDigit then
        let y := digitsVal ys.toList
        if 1 ≤ y ∧ d ≤ daysInMonth y m then some (y, m, d) else none
      else none
    | _, _ => none
  | _ => none

/-- `datetime.strptime(s, "%m/%d/%y")` (CPython: `%y` is exactly two digits,
`00`-`68` map to `20yy`, `69`-`99` to `19yy`). -/
def parseMDY2 (s : String) : Option (Nat × Nat × Nat) :=
  match splitOnChar '/' s with
  | [ms, ds, ys] =>
    match parseField2 ms 12, parseField2 ds 31 with
    | some m, some d =>
      if ys.length = 2 ∧ ys.toList.all Char.isDigit then
        let yy := digitsVal ys.toList
        let y := if yy ≤ 68 then 2000 + yy else 1900 + yy
        if d ≤ daysInMonth y m then some (y, m, d) else none
      else none
    | _, _ => none
  | _ => none

/-- Two-digit zero-padded decimal (`%02d`, for values below 100). -/
def pad2 (n : Nat) : String :=
  String.mk [Char.ofNat (48 + n / 10 % 10), Char.ofNat (48 + n % 10)]

/-- `dt.strftime("%m/%d/%Y")`. -/
def fmtMDY (y m d : Nat) : String :=
  pad2 m ++ "/" ++ pad2 d ++ "/" ++ toString y

/-- `dt.strftime("%y%m%d")` (file_renamer.py line 17). -/
def fmtYYMMDD (y m d : Nat) : String :=
  pad2 (y % 100) ++ pad2 m ++ pad2 d

/-- `NMWDExtractor._normalize_date` (nmwd.py lines 144-159): promote a
two-digit year by prefixing "20", then best-effort reformat via
`%m/%d/%Y`; on failure the (possibly promoted) string is returned. -/
def normalizeDateNmwd (dateStr : String) : String :=
  let s :=
    if (dateStr.toList.filter fun c => c = '/').length = 2 then
      match splitOnChar '/' dateStr with
      | [a, b, c] => if c.length = 2 then a ++ "/" ++ b ++ "/20" ++ c else dateStr
      | _ => dateStr
    else dateStr
  match parseMDY4 s with
  | some (y, m, d) => fmtMDY y m d
  | none => s

/-- `normalize_mmddyyyy` (models/bill_data.py lines 24-43): try `%m/%d/%Y`,
then `%m/%d/%y` (the `%-m` formats always raise and are skipped), then the
manual two-digit-year promotion; unparseable strings are returned stripped
but otherwise unchanged. -/
def normalizeMmddyyyy (dateStr : String) : String :=
  let s := pyStrip dateStr
  match parseMDY4 s with
  | some (y, m, d) => fmtMDY y m d
  | none =>
    match parseMDY2 s with
    | some (y, m, d) => fmtMDY y m d
    | none =>
      let s1 :=
        match splitOnChar '/' s with
        | [a, b, c] => if c.length = 2 then a ++ "/" ++ b ++ "/20" ++ c else s
        | _ => s
      match parseMDY4 s1 with
      | some (y, m, d) => fmtMDY y m d
      | none => s

/-- Replace the Unicode dashes `‒ – — −` by `-`
(nmwd.py line 96, mmwd.py line 126). -/
def normalizeDashes (s : String) : String :=
  String.mk (s.toList.map fun c =>
    if c = Char.ofNat 0x2012 ∨ c = Char.ofNat 0x2013 ∨ c = Char.ofNat 0x2014 ∨
        c = Char.ofNat 0x2212 then '-' else c)

/-! ## The extracted record (`models/bill_data.py`) -/

structure BillData where
  account_number : String
  bill_date : String
  due_date : String
  total_due : ℚ
  service_address : String
  current_usage_gallons : Int
  service_period : String
  district : String
  original_filename : String
  bill_start_date : String := ""
  bill_end_date : String := ""
deriving Repr, DecidableEq

/-! ## `NMWDExtractor` (`src/extractors/nmwd.py`) -/

/-- Token post-processing of `_extract_nmwd_total_due` (lines 205-215):
strip `$` and `,`, strip whitespace, parenthesized value is negative,
then `float` (a `ValueError` leaves the line scan unsuccessful). -/
def nmwdParseToken (tok : String) : Option ℚ :=
  let v := pyStrip (removeChar (removeChar tok '$') ',')
  if startsWithS "(" v ∧ endsWithS ")" v then
    match parsePyFloat (String.mk ((v.toList.drop 1).dropLast)) with
    | some q => some (-q)
    | none => none
  else
    match parsePyFloat v with
    | some q => some q
    | none => none

/-- Last element of a list, without the proof-carrying `getLast`. -/
def lastItem {α : Type} : List α → Option α
  | [] => none
  | [a] => some a
  | _ :: b :: rest => lastItem (b :: rest)

/-- One line of the `_extract_nmwd_total_due` scan: the LAST currency-looking
token on the (stripped) line, parsed. -/
def nmwdLineAmount (line : String) : Option ℚ :=
  match lastItem (findAll moneyPat line) with
  | some m => nmwdParseToken m.whole
  | none => none

/-- The line scan of `_extract_nmwd_total_due` (lines 199-215): first line
containing both "TOTAL" and "DUE" whose last currency token parses. -/
def nmwdTotalDueScan (text : String) : Option ℚ :=
  (splitLines text).findSome? fun rawLine =>
    let line := pyStrip rawLine
    let u := pyUpper line
    if containsSub "TOTAL" u ∧ containsSub "DUE" u then nmwdLineAmount line
    else none

/-- Group post-processing of the strict fallback (lines 226-234). -/
def nmwdParseStrictAmount (g : String) : Option ℚ :=
  let v := pyStrip (removeChar (removeChar g ',') '$')
  if startsWithS "(" v ∧ endsWithS ")" v then
    match parsePyFloat (String.mk ((v.toList.drop 1).dropLast)) with
    | some q => some (-q)
    | none => none
  else
    match parsePyFloat v with
    | some q => some q
    | none => none

/-- `NMWDExtractor._extract_nmwd_total_due` (lines 188-236). -/
def nmwdTotalDue (text : String) : Option ℚ :=
  match nmwdTotalDueScan text with
  | some v => some v
  | none =>
    match searchBOL nmwdStrictRest text with
    | some m =>
      match m.groupN 1 with
      | some g => nmwdParseStrictAmount g
      | none => none
    | none => none

/-- The five prioritized period patterns of `_extract_nmwd_period_dates`
(lines 99-114), already specialized to dash-normalized text. -/
def nmwdPeriodPats : List RE :=
  [seqAll [litCI "SERVICE", spacePlus, litCI "PERIOD", colonSpaceStar,
      .group 1 date1224, spaceStar, dashCls, spaceStar, .group 2 date1224],
   seqAll [litCI "BILLING", spacePlus, litCI "PERIOD", colonSpaceStar,
      .group 1 date1224, spaceStar, dashCls, spaceStar, .group 2 date1224],
   seqAll [.alt (litCI "SERVICE") (.alt (litCI "BILLING") (litCI "PERIOD")),
      .starL dotAll, litCI "FROM", spacePlus, .group 1 date1224, spacePlus,
      litCI "TO", spacePlus, .group 2 date1224],
   seqAll [litCI "CURRENT", spacePlus, litCI "PERIOD", .starL dotAll,
      .group 1 date1224, spaceStar, dashCls, spaceStar, .group 2 date1224],
   seqAll [.alt (litCI "Service") (litCI "Billing"), .starL dotAll,
      .group 1 date1224, spaceStar, dashCls, spaceStar, .group 2 date1224]]

/-- The line-scan fallback of `_extract_nmwd_period_dates` (lines 126-139):
skip lines with due/payment/invoice keywords; on a period/service/usage/
current keyword line with two date tokens, take the first two. -/
def nmwdPeriodFallback (lines : List String) : Option (String × String) :=
  lines.findSome? fun line =>
    let u := pyUpper line
    if ["DUE", "PAYMENT", "BILL DATE", "INVOICE"].any (fun k => containsSub k u) then
      none
    else if ["PERIOD", "SERVICE", "USAGE", "CURRENT"].any (fun k => containsSub k u) then
      match (findAll date1224 line).map (fun m => m.whole) with
      | d1 :: d2 :: _ => some (d1, d2)
      | _ => none
    else none

/-- `NMWDExtractor._extract_nmwd_period_dates` (lines 88-142). -/
def nmwdPeriodDates (text : String) : String × String :=
  let nt := normalizeDashes text
  match nmwdPeriodPats.findSome? (fun p => reSearch p nt) with
  | some m =>
    match m.groupN 1, m.groupN 2 with
    | some a, some b => (normalizeDateNmwd a, normalizeDateNmwd b)
    | _, _ => ("", "")
  | none =>
    match nmwdPeriodFallback (splitOnChar '\n' nt) with
    | some (a, b) => (normalizeDateNmwd a, normalizeDateNmwd b)
    | none => ("", "")

/-- The ordered account-number attempts of `NMWDExtractor.extract_data`
(lines 40-43), combined with Python `or`. -/
def nmwdAccount (text : String) : Option String :=
  pyOrS (extractPattern text nmwdAcctPat1) (extractPattern text nmwdAcctPat2)

/-- The due-date expression of `NMWDExtractor.extract_data` (lines 47-48). -/
def nmwdDueDate (text : String) : Option String :=
  if containsSub "Upon Receipt" text then some "Upon Receipt"
  else extractPattern text nmwdDueDatePat

/-- `NMWDExtractor.extract_data` (lines 20-86) on the page text (the
OCR fallback, an I/O path taken only for empty text, is not modelled). -/
def nmwdExtract (text fname : String) : Option BillData :=
  if isNmwdBill text = false then none
  else if text = "" then none
  else
    let pd := nmwdPeriodDates text
    match nmwdAccount text, nmwdTotalDue text with
    | some a, some t =>
      if a = "" then none
      else some
        { account_number := a
          bill_date := (extractPattern text nmwdBillDatePat).getD ""
          due_date := pyStrOr (nmwdDueDate text) "Upon Receipt"
          total_due := t
          service_address := (extractPattern text nmwdAddressPat).getD ""
          current_usage_gallons :=
            (pyOrI (extractNumber text nmwdUsagePat1)
              (extractNumber text nmwdUsagePat2)).getD 0
          service_period := if pd.1 ≠ "" ∧ pd.2 ≠ "" then pd.1 ++ " - " ++ pd.2 else ""
          district := "North Marin"
          original_filename := fname
          bill_start_date := pd.1
          bill_end_date := pd.2 }
    | _, _ => none

/-! ## `MMWDExtractor` (`src/extractors/mmwd.py`) -/

/-- Inner window of the pattern-3 units scan (lines 56-61): the first of the
next (up to) three lines that strips to a nonempty all-digit string. -/
def mmwdUnitsWindow (window : List String) : Option Int :=
  window.findSome? fun lj =>
    let t := pyStrip lj
    if t ≠ "" ∧ t.toList.all Char.isDigit then some ((digitsVal t.toList : Int))
    else none

/-- Pattern-3 units line scan of `MMWDExtractor.extract_data` (lines 52-62):
first line containing "Water Use" (case-sensitively) with at least two
following lines whose successor contains "Units*"; then scan the next up to
three lines for a bare integer, defaulting to 0. -/
def mmwdUnitsScanGo : List String → Int
  | l0 :: l1 :: rest =>
    if containsSub "Water Use" l0 && !rest.isEmpty && containsSub "Units*" l1 then
      (mmwdUnitsWindow (rest.take 3)).getD 0
    else mmwdUnitsScanGo (l1 :: rest)
  | _ => 0

/-- The three-tier unit extraction of `MMWDExtractor.extract_data`
(lines 40-62). -/
def mmwdUnits (text : String) : Int :=
  match reSearch mmwdUnitsPat1 text with
  | some m =>
    match m.groupN 1 with
    | some g => (parsePyInt g).getD 0
    | none => 0
  | none =>
    match reSearch mmwdUnitsPat2 text with
    | some m =>
      match m.groupN 5 with
      | some g => (parsePyInt g).getD 0
      | none => 0
    | none => mmwdUnitsScanGo (splitOnChar '\n' text)

/-- `MMWDExtractor._extract_mmwd_meter_read_dates` (lines 118-154). -/
def mmwdMeterDates (text : String) : String × String :=
  let nt := normalizeDashes text
  let m :=
    match reSearch mmwdMeterPat nt with
    | some m => some m
    | none =>
      (splitLines nt).findSome? fun line =>
        let u := pyUpper line
        if containsSub "METER" u ∧ containsSub "READ" u ∧ containsSub "DATE" u then
          reSearch dateRangePat line
        else none
  match m with
  | some mm =>
    match mm.groupN 1, mm.groupN 2 with
    | some a, some b => (normalizeMmddyyyy a, normalizeMmddyyyy b)
    | _, _ => ("", "")
  | none => ("", "")

/-- The due-date expression of `MMWDExtractor.extract_data` (lines 33-36):
the dated `Current Charges Due By` pattern, with "Upon Receipt" as the
fallback when it does not match. -/
def mmwdDueDate (text : String) : String :=
  pyStrOr (extractPattern text mmwdDuePat) "Upon Receipt"

/-- The account-number extraction of `MMWDExtractor.extract_data` (line 31). -/
def mmwdAccount (text : String) : Option String :=
  extractPattern text mmwdAcctPat

/-- `MMWDExtractor.extract_data` (lines 18-89) on the page text (the OCR
retry, an I/O path, is not modelled: classification failure yields `none`). -/
def mmwdExtract (text fname : String) : Option BillData :=
  if isMmwdBill text = false then none
  else if text = "" then none
  else
    let pd := mmwdMeterDates text
    match mmwdAccount text, extractCurrency text mmwdTotalPat with
    | some a, some t =>
      if a = "" then none
      else some
        { account_number := a
          bill_date := (extractPattern text mmwdBillDatePat).getD ""
          due_date := mmwdDueDate text
          total_due := t
          service_address := (extractPattern text mmwdAddrPat).getD ""
          current_usage_gallons := mmwdUnits text * 748
          service_period := if pd.1 ≠ "" ∧ pd.2 ≠ "" then pd.1 ++ " - " ++ pd.2 else ""
          district := "Marin Municipal"
          original_filename := fname
          bill_start_date := pd.1
          bill_end_date := pd.2 }
    | _, _ => none

/-! ## `ExcelProcessor` (`src/processors/excel_processor.py`) -/

/-- A worksheet cell value as seen through openpyxl: absent (`None`), a
string, a stored number (`ℚ` for the currency float, `Int` for integers),
or a written `datetime` date. -/
inductive CellVal where
  | vStr (s : String) : CellVal
  | vRat (q : ℚ) : CellVal
  | vInt (n : Int) : CellVal
  | vDate (y m d : Nat) : CellVal
deriving Repr, DecidableEq

/-- Python truthiness of a cell value (`if cell_value:` in the account
scan). -/
def cellTruthy : Option CellVal → Bool
  | none => false
  | some (.vStr s) => s ≠ ""
  | some (.vRat q) => q ≠ 0
  | some (.vInt n) => n ≠ 0
  | some (.vDate _ _ _) => true

/-- Python `str(cell_value)` for the cell shapes above (account cells in the
templates are strings or integers; the other shapes never reach the scan in
the modelled claims, and get a best-effort rendering). -/
def cellStr : CellVal → String
  | .vStr s => s
  | .vRat q => toString q
  | .vInt n => toString n
  | .vDate y m d => toString y ++ "-" ++ pad2 m ++ "-" ++ pad2 d ++ " 00:00:00"

/-- The worksheet: a cell map indexed by (row, column), plus
`worksheet.max_row`.  The reconciler never adds or removes rows; it only
rewrites individual cells. -/
structure Worksheet where
  cells : Nat → Nat → Option CellVal
  maxRow : Nat

def setCell (ws : Worksheet) (r c : Nat) (v : CellVal) : Worksheet :=
  ⟨fun r' c' => if r' = r ∧ c' = c then some v else ws.cells r' c', ws.maxRow⟩

/-- `ExcelProcessor._is_blank` (lines 54-58): `None` or a string of only
whitespace. -/
def isBlank : Option CellVal → Bool
  | none => true
  | some (.vStr s) => pyStrip s = ""
  | some _ => false

/-- `ExcelProcessor._is_account_match` (lines 34-52): non-empty inputs whose
digits-only normalizations are equal or contained one in the other. -/
def isAccountMatch (billAccount excelAccount : String) : Bool :=
  if billAccount = "" ∨ excelAccount = "" then false
  else
    let b := digitsOnly billAccount
    let e := digitsOnly excelAccount
    b = e || containsSub b e || containsSub e b

/-- The template scan of `generate_excel_report` (lines 97-105): rows
`start_row .. min(start_row + 50, max_row + 1)` (exclusive), keeping truthy
account-column cells as stripped strings, in row order. -/
def buildIndex (ws : Worksheet) (startRow accountCol : Nat) : List (Nat × String) :=
  (List.range' startRow (min (startRow + 50) (ws.maxRow + 1) - startRow)).filterMap
    fun r =>
      match ws.cells r accountCol with
      | some v => if cellTruthy (some v) then some (r, pyStrip (cellStr v)) else none
      | none => none

/-- The two-phase row selection of `generate_excel_report` (lines 128-144):
first matching row whose amount cell (column 9) is blank; otherwise the
first matching row. -/
def findTargetRow (ws : Worksheet) (idx : List (Nat × String)) (acct : String) :
    Option Nat :=
  match idx.find? (fun p => isAccountMatch acct p.2 && isBlank (ws.cells p.1 9)) with
  | some p => some p.1
  | none =>
    match idx.find? (fun p => isAccountMatch acct p.2) with
    | some p => some p.1
    | none => none

/-- Per-district constants (config.py `DISTRICT_CONFIG`). -/
structure DistrictCfg where
  vendor_id : String
  supplier_name : String
deriving Repr, DecidableEq

def nmwdCfg : DistrictCfg := ⟨"300011", "North Marin Water District"⟩

def mmwdCfg : DistrictCfg := ⟨"309438", "Marin Municipal Water District"⟩

/-- Fill one column if its cell is currently blank. -/
def writeIfBlank (ws : Worksheet) (r c : Nat) (v : CellVal) : Worksheet :=
  if isBlank (ws.cells r c) then setCell ws r c v else ws

/-- The ten (column, value) pairs written by `_populate_row`, in source
order.  Column 1 stores the parsed bill date as a date, or the raw string
when `strptime` fails; column 10 stores the integer usage (`int()` of an
`Int` always succeeds). -/
def rowValues (bill : BillData) (cfg : DistrictCfg) : List (Nat × CellVal) :=
  [(1, match parseMDY4 bill.bill_date with
       | some (y, m, d) => CellVal.vDate y m d
       | none => CellVal.vStr bill.bill_date),
   (2, .vStr bill.service_address),
   (3, .vStr bill.service_period),
   (4, .vStr "Water"),
   (5, .vStr "105-000-60035-803-0000"),
   (6, .vStr cfg.vendor_id),
   (7, .vStr cfg.supplier_name),
   (8, .vStr bill.account_number),
   (9, .vRat bill.total_due),
   (10, .vInt bill.current_usage_gallons)]

/-- `ExcelProcessor._populate_row` (lines 211-263): fill each of the ten
designated columns in order, each only when its cell is currently blank. -/
def populateRow (ws : Worksheet) (r : Nat) (bill : BillData) (cfg : DistrictCfg) :
    Worksheet :=
  (rowValues bill cfg).foldl (fun w p => writeIfBlank w r p.1 p.2) ws

/-- The per-bill loop of `generate_excel_report` (lines 126-152): populate
the selected row, or append `(account_number, original_filename)` to the
unmatched list (a selected row number is used through Python truthiness,
hence the `Nat.succ` pattern). -/
def processBills (cfg : DistrictCfg) (idx : List (Nat × String)) :
    List BillData → Worksheet → List (String × String) →
      Worksheet × List (String × String)
  | [], ws, um => (ws, um)
  | b :: rest, ws, um =>
    match findTargetRow ws idx b.account_number with
    | some (Nat.succ r) =>
      processBills cfg idx rest (populateRow ws (Nat.succ r) b cfg) um
    | _ =>
      processBills cfg idx rest ws (um ++ [(b.account_number, b.original_filename)])

/-- The in-memory reconciliation of `generate_excel_report`: scan the
account column (config.py: `start_row = 9`, `account_col = 8`), then process
the batch.  The surrounding template/save I/O is not modelled. -/
def reconcileBills (cfg : DistrictCfg) (bills : List BillData) (ws : Worksheet) :
    Worksheet × List (String × String) :=
  processBills cfg (buildIndex ws 9 8) bills ws []

/-! ## `FileRenamer.generate_filename` (`src/processors/file_renamer.py`) -/

/-- Characters kept by the sanitizing filter (line 28):
`c.isalnum() or c in " #.-_"`. -/
def isLegalFilenameChar (c : Char) : Bool :=
  c.isAlphanum || c = ' ' || c = '#' || c = '.' || c = '-' || c = '_'

def sanitizeFilename (s : String) : String :=
  String.mk (s.toList.filter isLegalFilenameChar)

/-- The date prefix of `generate_filename` (lines 15-19): `strftime("%y%m%d")`
of the parsed bill date, `"000000"` when `strptime` fails. -/
def filenameDatePrefix (billDate : String) : String :=
  match parseMDY4 billDate with
  | some (y, m, d) => fmtYYMMDD y m d
  | none => "000000"

/-- `FileRenamer.generate_filename` (lines 13-29). -/
def generateFilename (bill : BillData) : String :=
  let dateStr := filenameDatePrefix bill.bill_date
  let filename :=
    if bill.district = "North Marin" then
      dateStr ++ " Account #" ++ bill.account_number ++ ".pdf"
    else if bill.district = "Marin Municipal" then
      dateStr ++ " MMWD " ++ bill.account_number ++ ".pdf"
    else
      dateStr ++ " " ++ bill.account_number ++ ".pdf"
  sanitizeFilename filename

/-- Modelled from the spec's words for claim C1 only (refinement
comparison): phase 1 accepts an indexed row only when the amount cell is
blank AND the digits-only normalizations are exactly equal; phase 2 is the
exact-or-containment match. -/
def findTargetRowSpecC1 (ws : Worksheet) (idx : List (Nat × String)) (acct : String) :
    Option Nat :=
  match idx.find? (fun p => (digitsOnly acct = digitsOnly p.2 ∧ acct ≠ "" ∧ p.2 ≠ "" : Bool)
      && isBlank (ws.cells p.1 9)) with
  | some p => some p.1
  | none =>
    match idx.find? (fun p => isAccountMatch acct p.2) with
    | some p => some p.1
    | none => none

/-- A worksheet with one pre-filled amount cell and one filled account cell,
used to witness the preservation theorems. -/
def wsWitness : Worksheet :=
  ⟨fun r c =>
    if r = 9 ∧ c = 8 then some (.vStr "123456")
    else if r = 9 ∧ c = 9 then some (.vRat 77)
    else none, 20⟩

def billWitness : BillData :=
  { account_number := "123456", bill_date := "09/15/2025", due_date := "Upon Receipt",
    total_due := 5, service_address := "1 Main St", current_usage_gallons := 100,
    service_period := "", district := "North Marin", original_filename := "b.pdf" }

def idxWitnessC9 : List (Nat × String) := [(9, "999111"), (10, "888222")]

/-- The C1 counterexample worksheet: two indexed account rows, all fill
cells blank.  Row 9 holds `123456-99` (a containment match for `123456`),
row 10 holds `123456` (the exact digits-only match). -/
def wsC1 : Worksheet :=
  ⟨fun r c =>
    if c = 8 ∧ r = 9 then some (.vStr "123456-99")
    else if c = 8 ∧ r = 10 then some (.vStr "123456")
    else none, 20⟩

/-- A worksheet whose first indexed row (9) has a FILLED amount cell while
row 10's amount cell is blank. -/
def wsC10 : Worksheet :=
  ⟨fun r c =>
    if r = 9 ∧ c = 8 then some (.vStr "999111")
    else if r = 9 ∧ c = 9 then some (.vRat 1)
    else if r = 10 ∧ c = 8 then some (.vStr "888222")
    else none, 20⟩

def txNmwdFull : String :=
  "NORTH MARIN WATER DISTRICT\nACCOUNT NUMBER: 123456\nTOTAL DUE $50.00"

def txNmwdNoAcct : String :=
  "NORTH MARIN WATER DISTRICT\nTOTAL DUE $50.00"

def txMmwdFull : String :=
  "MARIN MUNICIPAL\nCustomer Number: 1234567\nTOTAL DUE: $5.00"

def txMmwdNoTotal : String :=
  "MARIN MUNICIPAL\nCustomer Number: 1234567"

def txMmwdBoth : String :=
  "MARIN MUNICIPAL\nCustomer Number: 1234567\nCurrent Charges Due By: 09/15/2025\nUpon Receipt\nTOTAL DUE: $5.00"

def txNmwdUpon : String :=
  "NORTH MARIN WATER DISTRICT\nACCOUNT NUMBER: 123456\nUpon Receipt\nTOTAL DUE $50.00"

def recNmwdUpon : BillData :=
  { account_number := "123456", bill_date := "", due_date := "Upon Receipt",
    total_due := 50, service_address := "", current_usage_gallons := 0,
    service_period := "", district := "North Marin", original_filename := "a.pdf" }

def recMmwdPlain : BillData :=
  { account_number := "1234567", bill_date := "", due_date := "Upon Receipt",
    total_due := 5, service_address := "", current_usage_gallons := 0,
    service_period := "", district := "Marin Municipal", original_filename := "b.pdf" }

/-- Declarative matching semantics for `RE`: `Matches re l l' c` says the
pattern can consume a prefix of `l` leaving `l'`, producing captures `c`
(star iterations must consume, as in `mrun`). -/
inductive Matches : RE → List Char → List Char → Caps → Prop where
  | eps {l} : Matches .eps l l []
  | cls {p c rest} : p c = true → Matches (.cls p) (c :: rest) rest []
  | seqM {a b l l1 l2 c1 c2} : Matches a l l1 c1 → Matches b l1 l2 c2 →
      Matches (.seq a b) l l2 (c1 ++ c2)
  | altL {a b l l1 c} : Matches a l l1 c → Matches (.alt a b) l l1 c
  | altR {a b l l1 c} : Matches b l l1 c → Matches (.alt a b) l l1 c
  | starGNil {a l} : Matches (.starG a) l l []
  | starGCons {a l l1 l2 c1 c2} : Matches a l l1 c1 → l1.length < l.length →
      Matches (.starG a) l1 l2 c2 → Matches (.starG a) l l2 (c1 ++ c2)
  | starLNil {a l} : Matches (.starL a) l l []
  | starLCons {a l l1 l2 c1 c2} : Matches a l l1 c1 → l1.length < l.length →
      Matches (.starL a) l1 l2 c2 → Matches (.starL a) l l2 (c1 ++ c2)
  | optSome {a l l1 c} : Matches a l l1 c → Matches (.optG a) l l1 c
  | optNone {a l} : Matches (.optG a) l l []
  | groupM {k a l l1 c} : Matches a l l1 c →
      Matches (.group k a) l l1 (c ++ [(k, capBetween l l1)])
  | lookM {a l l1 c} : Matches a l l1 c → Matches (.look a) l l []

/-- Whether a pattern contains no capture groups. -/
def noGroups : RE → Bool
  | .eps => true
  | .cls _ => true
  | .seq a b => noGroups a && noGroups b
  | .alt a b => noGroups a && noGroups b
  | .starG a => noGroups a
  | .starL a => noGroups a
  | .optG a => noGroups a
  | .group _ _ => false
  | .look a => noGroups a

def txMmwdShortAcct : String := "MARIN MUNICIPAL\nCustomer Number: 123\nTOTAL DUE: $5.00"

/-! ## Lemmas about the reconciler -/

theorem writeIfBlank_preserves_filled (ws : Worksheet) (r c : Nat) (v : CellVal)
    (r' c' : Nat) (h : isBlank (ws.cells r' c') = false) :
    (writeIfBlank ws r c v).cells r' c' = ws.cells r' c' := by
  unfold writeIfBlank setCell
  cases hb : isBlank (ws.cells r c) with
  | false => simp
  | true =>
    simp only [if_true]
    by_cases he : r' = r ∧ c' = c
    · obtain ⟨rfl, rfl⟩ := he
      rw [h] at hb
      cases hb
    · simp [he]

theorem foldWrite_preserves_filled (r r' c' : Nat) :
    ∀ (L : List (Nat × CellVal)) (ws : Worksheet),
      isBlank (ws.cells r' c') = false →
      ((L.foldl (fun w p => writeIfBlank w r p.1 p.2) ws).cells r' c' = ws.cells r' c')
  | [], _, _ => rfl
  | p :: L, ws, h => by
    have h1 := writeIfBlank_preserves_filled ws r p.1 p.2 r' c' h
    have h2 : isBlank ((writeIfBlank ws r p.1 p.2).cells r' c') = false := by
      rw [h1]; exact h
    calc ((p :: L).foldl (fun w q => writeIfBlank w r q.1 q.2) ws).cells r' c'
        = (L.foldl (fun w q => writeIfBlank w r q.1 q.2)
            (writeIfBlank ws r p.1 p.2)).cells r' c' := rfl
      _ = (writeIfBlank ws r p.1 p.2).cells r' c' :=
          foldWrite_preserves_filled r r' c' L _ h2
      _ = ws.cells r' c' := h1

theorem populateRow_preserves_filled (ws : Worksheet) (r : Nat) (bill : BillData)
    (cfg : DistrictCfg) (r' c' : Nat) (h : isBlank (ws.cells r' c') = false) :
    (populateRow ws r bill cfg).cells r' c' = ws.cells r' c' :=
  foldWrite_preserves_filled r r' c' (rowValues bill cfg) ws h

theorem processBills_preserves_filled (cfg : DistrictCfg) (idx : List (Nat × String)) :
    ∀ (bills : List BillData) (ws : Worksheet) (um : List (String × String))
      (r' c' : Nat), isBlank (ws.cells r' c') = false →
      ((processBills cfg idx bills ws um).1.cells r' c' = ws.cells r' c')
  | [], _, _, _, _, _ => rfl
  | b :: bills, ws, um, r', c', h => by
    rcases hft : findTargetRow ws idx b.account_number with _ | r
    · simpa [processBills, hft] using
        processBills_preserves_filled cfg idx bills ws _ r' c' h
    · cases r with
      | zero =>
        simpa [processBills, hft] using
          processBills_preserves_filled cfg idx bills ws _ r' c' h
      | succ n =>
        have h1 := populateRow_preserves_filled ws (n + 1) b cfg r' c' h
        have h2 : isBlank ((populateRow ws (n + 1) b cfg).cells r' c') = false := by
          rw [h1]; exact h
        calc (processBills cfg idx (b :: bills) ws um).1.cells r' c'
            = (processBills cfg idx bills (populateRow ws (n + 1) b cfg) um).1.cells r' c' := by
              simp [processBills, hft]
          _ = (populateRow ws (n + 1) b cfg).cells r' c' :=
              processBills_preserves_filled cfg idx bills _ um r' c' h2
          _ = ws.cells r' c' := h1

/-- C2: reconciliation is idempotent at the cell level.  Each designated
column is written only when the cell is currently blank (`None` or
whitespace-only), so a cell that is non-blank is never changed by
`_populate_row`; consequently a second reconciliation run of the same batch
over the workbook state produced by the first run leaves every non-blank
cell (in particular every cell the first pass filled) unchanged. -/
theorem c2_cell_level_idempotence :
    (∀ (ws : Worksheet) (r : Nat) (bill : BillData) (cfg : DistrictCfg) (r' c' : Nat),
      isBlank (ws.cells r' c') = false →
      (populateRow ws r bill cfg).cells r' c' = ws.cells r' c')
    ∧ (∀ (cfg : DistrictCfg) (bills : List BillData) (ws : Worksheet) (r c : Nat),
      isBlank ((reconcileBills cfg bills ws).1.cells r c) = false →
      (reconcileBills cfg bills (reconcileBills cfg bills ws).1).1.cells r c
        = (reconcileBills cfg bills ws).1.cells r c) := by
  constructor
  · exact populateRow_preserves_filled
  · intro cfg bills ws r c h
    exact processBills_preserves_filled cfg
      (buildIndex (reconcileBills cfg bills ws).1 9 8) bills _ [] r c h

theorem c2_cell_level_idempotence_witness :
    (populateRow wsWitness 9 billWitness nmwdCfg).cells 9 9 = wsWitness.cells 9 9
      ∧ (reconcileBills nmwdCfg [billWitness]
          (reconcileBills nmwdCfg [billWitness] wsWitness).1).1.cells 9 9
        = (reconcileBills nmwdCfg [billWitness] wsWitness).1.cells 9 9 :=
  ⟨c2_cell_level_idempotence.1 wsWitness 9 billWitness nmwdCfg 9 9 (by decide),
   c2_cell_level_idempotence.2 nmwdCfg [billWitness] wsWitness 9 9 (by decide)⟩

theorem findTargetRow_eq_none (ws : Worksheet) (idx : List (Nat × String))
    (acct : String) (h : ∀ p ∈ idx, isAccountMatch acct p.2 = false) :
    findTargetRow ws idx acct = none := by
  unfold findTargetRow
  have h1 : idx.find? (fun p => isAccountMatch acct p.2 && isBlank (ws.cells p.1 9))
      = none := by
    rw [List.find?_eq_none]
    intro p hp
    simp [h p hp]
  have h2 : idx.find? (fun p => isAccountMatch acct p.2) = none := by
    rw [List.find?_eq_none]
    intro p hp
    simp [h p hp]
  rw [h1, h2]

/-- C9: a record whose account matches no indexed row is appended exactly
once to the unmatched list as `(account_number, original_filename)`, the
worksheet is left entirely unchanged by that record (no row created or
deleted, no cell written), and the loop continues with the remaining
records from the same worksheet state. -/
theorem c9_unmatched_record (cfg : DistrictCfg) (idx : List (Nat × String))
    (b : BillData) (rest : List BillData) (ws : Worksheet)
    (um : List (String × String))
    (h : ∀ p ∈ idx, isAccountMatch b.account_number p.2 = false) :
    findTargetRow ws idx b.account_number = none
      ∧ processBills cfg idx (b :: rest) ws um
        = processBills cfg idx rest ws
            (um ++ [(b.account_number, b.original_filename)])
      ∧ (um ++ [(b.account_number, b.original_filename)]).count
            (b.account_number, b.original_filename)
        = um.count (b.account_number, b.original_filename) + 1 := by
  have hn := findTargetRow_eq_none ws idx b.account_number h
  refine ⟨hn, ?_, ?_⟩
  · simp [processBills, hn]
  · simp

theorem c9_unmatched_record_witness :
    findTargetRow wsWitness idxWitnessC9 "555000" = none
      ∧ processBills nmwdCfg idxWitnessC9
          [{ billWitness with account_number := "555000", original_filename := "x.pdf" }]
          wsWitness []
        = processBills nmwdCfg idxWitnessC9 [] wsWitness [("555000", "x.pdf")]
      ∧ ([] ++ [(("555000" : String), ("x.pdf" : String))]).count ("555000", "x.pdf")
        = ([] : List (String × String)).count ("555000", "x.pdf") + 1 :=
  c9_unmatched_record nmwdCfg idxWitnessC9
    { billWitness with account_number := "555000", original_filename := "x.pdf" }
    [] wsWitness [] (by decide)

/-- C1 counterexample: the first phase of the code's row selection is NOT
restricted to exact digits-only matches.  With a blank exact match at
row 10 and an earlier blank containment-only match at row 9, the code picks
row 9, while the spec's phase-1 rule (exact match on a blank row) picks
row 10. -/
theorem c1_counterexample :
    buildIndex wsC1 9 8 = [(9, "123456-99"), (10, "123456")]
      ∧ findTargetRow wsC1 (buildIndex wsC1 9 8) "123456" = some 9
      ∧ findTargetRowSpecC1 wsC1 (buildIndex wsC1 9 8) "123456" = some 10
      ∧ digitsOnly "123456" ≠ digitsOnly "123456-99"
      ∧ digitsOnly "123456" = digitsOnly (buildIndex wsC1 9 8)[1]!.2
      ∧ isBlank (wsC1.cells 10 9) = true := by
  decide

/-- C1 amended: in the first phase the reconciler takes the FIRST indexed
row whose amount cell (column 9) is blank and whose account matches under
the exact-or-containment predicate `_is_account_match` (not only exact
matches); only when no blank matching row exists does it take the first
matching row regardless of fill state. -/
theorem c1_amended_two_phase (ws : Worksheet) (idx : List (Nat × String))
    (acct : String) :
    (∀ p, idx.find? (fun q => isAccountMatch acct q.2 && isBlank (ws.cells q.1 9))
        = some p →
      findTargetRow ws idx acct = some p.1 ∧ isAccountMatch acct p.2 = true
        ∧ isBlank (ws.cells p.1 9) = true)
    ∧ (idx.find? (fun q => isAccountMatch acct q.2 && isBlank (ws.cells q.1 9))
        = none →
      findTargetRow ws idx acct
        = (idx.find? fun q => isAccountMatch acct q.2).map (fun q => q.1)) := by
  constructor
  · intro p hp
    have hpred := List.find?_some hp
    rw [Bool.and_eq_true] at hpred
    unfold findTargetRow
    rw [hp]
    exact ⟨rfl, hpred.1, hpred.2⟩
  · intro hnone
    unfold findTargetRow
    rw [hnone]
    rcases h2 : idx.find? (fun q => isAccountMatch acct q.2) with _ | q <;> rw [h2] <;> rfl

theorem c1_amended_two_phase_witness :
    findTargetRow wsC1 (buildIndex wsC1 9 8) "123456" = some (9, "123456-99").1
      ∧ isAccountMatch "123456" (9, "123456-99").2 = true
      ∧ isBlank (wsC1.cells (9, "123456-99").1 9) = true :=
  (c1_amended_two_phase wsC1 (buildIndex wsC1 9 8) "123456").1 (9, "123456-99")
    (by decide)

theorem containsSubL_nil_left (l : List Char) : containsSubL [] l = true := by
  cases l <;> simp [containsSubL, List.isPrefixOf]

theorem containsSub_empty_left (s : String) : containsSub "" s = true :=
  containsSubL_nil_left s.toList

theorem digitsOnly_eq_empty_of_no_digit (s : String)
    (h : ∀ c ∈ s.toList, c.isDigit = false) : digitsOnly s = "" := by
  unfold digitsOnly
  have hf : s.toList.filter Char.isDigit = [] := by
    rw [List.filter_eq_nil_iff]
    intro c hc
    simp [h c hc]
  rw [hf]

/-- C10 amended: a non-empty bill account with no digit characters
normalizes to the empty string, which is a substring of every
normalization, so the match predicate accepts EVERY non-empty template
value; such a record is matched to the first scanned row whose amount cell
is blank — to the first scanned row itself exactly when that row's amount
cell is blank, and to the first scanned row also when no row has a blank
amount cell — and with a non-empty index it is never added to the
unmatched list. -/
theorem c10_digitless_account_matches_all (acct : String) (hne : acct ≠ "")
    (hnd : ∀ c ∈ acct.toList, c.isDigit = false) :
    (∀ e, e ≠ "" → isAccountMatch acct e = true)
      ∧ (∀ (ws : Worksheet) (r : Nat) (e : String) (tl : List (Nat × String)),
          e ≠ "" → isBlank (ws.cells r 9) = true →
          findTargetRow ws ((r, e) :: tl) acct = some r)
      ∧ (∀ (ws : Worksheet) (r : Nat) (e : String) (tl : List (Nat × String)),
          e ≠ "" →
          ((r, e) :: tl).find?
              (fun q => isAccountMatch acct q.2 && isBlank (ws.cells q.1 9)) = none →
          findTargetRow ws ((r, e) :: tl) acct = some r)
      ∧ (∀ (cfg : DistrictCfg) (ws : Worksheet) (um : List (String × String))
          (b : BillData) (idx : List (Nat × String)),
          b.account_number = acct → idx ≠ [] →
          (∀ p ∈ idx, p.2 ≠ "" ∧ p.1 ≠ 0) →
          (processBills cfg idx [b] ws um).2 = um) := by
  have hdig : digitsOnly acct = "" := digitsOnly_eq_empty_of_no_digit acct hnd
  have part1 : ∀ e, e ≠ "" → isAccountMatch acct e = true := by
    intro e he
    unfold isAccountMatch
    rw [if_neg (by push_neg; exact ⟨hne, he⟩)]
    simp [hdig, containsSub_empty_left]
  refine ⟨part1, ?_, ?_, ?_⟩
  · intro ws r e tl he hb
    have hp : (fun q : Nat × String =>
        isAccountMatch acct q.2 && isBlank (ws.cells q.1 9)) (r, e) = true := by
      simp [part1 e he, hb]
    unfold findTargetRow
    rw [List.find?_cons_of_pos tl hp]
  · intro ws r e tl he hnone
    have hp : (fun q : Nat × String => isAccountMatch acct q.2) (r, e) = true := by
      simpa using part1 e he
    unfold findTargetRow
    rw [hnone, List.find?_cons_of_pos tl hp]
  · intro cfg ws um b idx hacct hidx hall
    have hsome : ∃ r, findTargetRow ws idx b.account_number = some r ∧
        ∃ e, (r, e) ∈ idx := by
      unfold findTargetRow
      rcases h1 : idx.find? (fun p => isAccountMatch b.account_number p.2
          && isBlank (ws.cells p.1 9)) with _ | p
      · rw [h1]
        rcases idx with _ | ⟨p0, tl⟩
        · exact absurd rfl hidx
        · have hp0 : (fun p : Nat × String =>
              isAccountMatch b.account_number p.2) p0 = true := by
            rw [hacct]
            exact part1 p0.2 (hall p0 (List.mem_cons_self p0 tl)).1
          rw [List.find?_cons_of_pos tl hp0]
          exact ⟨p0.1, rfl, p0.2, by simp⟩
      · rw [h1]
        have hmem := List.mem_of_find?_eq_some h1
        exact ⟨p.1, rfl, p.2, by simpa using hmem⟩
    obtain ⟨r, hr, e, hre⟩ := hsome
    have hr0 : r ≠ 0 := (hall (r, e) hre).2
    rcases r with _ | n
    · exact absurd rfl hr0
    · simp [processBills, hr]

/-- C10 counterexample: the digit-free account matches every indexed row,
but when the FIRST scanned row's amount cell is already filled the record
is matched to the first blank matching row (row 10), not to the first
scanned template row (row 9). -/
theorem c10_counterexample :
    buildIndex wsC10 9 8 = [(9, "999111"), (10, "888222")]
      ∧ isAccountMatch "ABC-XYZ" "999111" = true
      ∧ findTargetRow wsC10 (buildIndex wsC10 9 8) "ABC-XYZ" = some 10
      ∧ (10 : Nat) ≠ 9 := by
  decide

theorem c10_digitless_account_matches_all_witness :
    isAccountMatch "ABC-XYZ" "999111" = true
      ∧ findTargetRow wsC1 ((9, "999111") :: []) "ABC-XYZ" = some 9
      ∧ findTargetRow wsC10 ((9, "999111") :: []) "ABC-XYZ" = some 9
      ∧ (processBills nmwdCfg [(9, "999111")]
          [{ billWitness with account_number := "ABC-XYZ" }] wsC1 []).2 = [] := by
  have h := c10_digitless_account_matches_all "ABC-XYZ" (by decide) (by decide)
  exact ⟨h.1 "999111" (by decide),
    h.2.1 wsC1 9 "999111" [] (by decide) (by decide),
    h.2.2.1 wsC10 9 "999111" [] (by decide) (by decide),
    h.2.2.2 nmwdCfg wsC1 [] { billWitness with account_number := "ABC-XYZ" }
      [(9, "999111")] rfl (by decide) (by decide)⟩

/-! ## Lemmas about the extractors -/

theorem nmwdExtract_fields (text fname : String) (b : BillData)
    (h : nmwdExtract text fname = some b) :
    isNmwdBill text = true ∧ nmwdAccount text = some b.account_number
      ∧ b.account_number ≠ "" ∧ nmwdTotalDue text = some b.total_due
      ∧ b.due_date = pyStrOr (nmwdDueDate text) "Upon Receipt" := by
  unfold nmwdExtract at h
  cases hv : isNmwdBill text with
  | false => simp [hv] at h
  | true =>
    rw [hv, if_neg (by decide : ¬(true = false))] at h
    by_cases ht : text = ""
    · rw [if_pos ht] at h
      exact Option.noConfusion h
    · rw [if_neg ht] at h
      rcases ha : nmwdAccount text with _ | a <;>
        rcases htd : nmwdTotalDue text with _ | t <;> rw [ha, htd] at h <;>
          dsimp only at h
      · exact Option.noConfusion h
      · exact Option.noConfusion h
      · exact Option.noConfusion h
      · by_cases hae : a = ""
        · rw [if_pos hae] at h
          exact Option.noConfusion h
        · rw [if_neg hae] at h
          have hb := Option.some.inj h
          subst hb
          exact ⟨rfl, rfl, hae, rfl, rfl⟩

theorem mmwdExtract_fields (text fname : String) (b : BillData)
    (h : mmwdExtract text fname = some b) :
    isMmwdBill text = true ∧ mmwdAccount text = some b.account_number
      ∧ b.account_number ≠ "" ∧ extractCurrency text mmwdTotalPat = some b.total_due
      ∧ b.due_date = mmwdDueDate text := by
  unfold mmwdExtract at h
  cases hv : isMmwdBill text with
  | false => simp [hv] at h
  | true =>
    rw [hv, if_neg (by decide : ¬(true = false))] at h
    by_cases ht : text = ""
    · rw [if_pos ht] at h
      exact Option.noConfusion h
    · rw [if_neg ht] at h
      rcases ha : mmwdAccount text with _ | a <;>
        rcases htd : extractCurrency text mmwdTotalPat with _ | t <;> rw [ha, htd] at h <;>
          dsimp only at h
      · exact Option.noConfusion h
      · exact Option.noConfusion h
      · exact Option.noConfusion h
      · by_cases hae : a = ""
        · rw [if_pos hae] at h
          exact Option.noConfusion h
        · rw [if_neg hae] at h
          have hb := Option.some.inj h
          subst hb
          exact ⟨rfl, rfl, hae, rfl, rfl⟩

theorem nmwdExtract_isSome (text fname a : String) (t : ℚ)
    (ha : nmwdAccount text = some a) (hae : a ≠ "")
    (htd : nmwdTotalDue text = some t) (hv : isNmwdBill text = true) :
    nmwdExtract text fname ≠ none := by
  have ht : text ≠ "" := by
    intro he
    rw [he] at hv
    exact Bool.noConfusion hv
  unfold nmwdExtract
  rw [hv, if_neg (by decide : ¬(true = false)), if_neg ht]
  dsimp only
  rw [ha, htd]
  dsimp only
  rw [if_neg hae]
  exact Option.noConfusion

theorem mmwdExtract_isSome (text fname a : String) (t : ℚ)
    (ha : mmwdAccount text = some a) (hae : a ≠ "")
    (htd : extractCurrency text mmwdTotalPat = some t) (hv : isMmwdBill text = true) :
    mmwdExtract text fname ≠ none := by
  have ht : text ≠ "" := by
    intro he
    rw [he] at hv
    exact Bool.noConfusion hv
  unfold mmwdExtract
  rw [hv, if_neg (by decide : ¬(true = false)), if_neg ht]
  dsimp only
  rw [ha, htd]
  dsimp only
  rw [if_neg hae]
  exact Option.noConfusion

/-- C3: each district extractor produces a record exactly when both
mandatory fields are extracted.  A missing or empty account number, or a
missing total-due, yields `none`; conversely, once the text passes the
district check and both mandatory fields are present, a record is produced
regardless of the outcome of every other field (bill date, due date,
address, usage, period). -/
theorem c3_mandatory_fields (text fname : String) :
    ((nmwdAccount text = none ∨ nmwdAccount text = some "") →
        nmwdExtract text fname = none)
      ∧ (nmwdTotalDue text = none → nmwdExtract text fname = none)
      ∧ (∀ a t, nmwdAccount text = some a → a ≠ "" → nmwdTotalDue text = some t →
          isNmwdBill text = true → nmwdExtract text fname ≠ none)
      ∧ ((mmwdAccount text = none ∨ mmwdAccount text = some "") →
          mmwdExtract text fname = none)
      ∧ (extractCurrency text mmwdTotalPat = none → mmwdExtract text fname = none)
      ∧ (∀ a t, mmwdAccount text = some a → a ≠ "" →
          extractCurrency text mmwdTotalPat = some t → isMmwdBill text = true →
          mmwdExtract text fname ≠ none) := by
  refine ⟨?_, ?_, ?_, ?_, ?_, ?_⟩
  · intro hacc
    rcases he : nmwdExtract text fname with _ | b
    · rfl
    · obtain ⟨-, ha, hae, -, -⟩ := nmwdExtract_fields text fname b he
      rcases hacc with h0 | h0 <;> rw [h0] at ha
      · exact Option.noConfusion ha
      · exact absurd (Option.some.inj ha) (fun hh => hae hh.symm)
  · intro htd
    rcases he : nmwdExtract text fname with _ | b
    · rfl
    · obtain ⟨-, -, -, ht, -⟩ := nmwdExtract_fields text fname b he
      rw [htd] at ht
      exact Option.noConfusion ht
  · intro a t ha hae htd hv
    exact nmwdExtract_isSome text fname a t ha hae htd hv
  · intro hacc
    rcases he : mmwdExtract text fname with _ | b
    · rfl
    · obtain ⟨-, ha, hae, -, -⟩ := mmwdExtract_fields text fname b he
      rcases hacc with h0 | h0 <;> rw [h0] at ha
      · exact Option.noConfusion ha
      · exact absurd (Option.some.inj ha) (fun hh => hae hh.symm)
  · intro htd
    rcases he : mmwdExtract text fname with _ | b
    · rfl
    · obtain ⟨-, -, -, ht, -⟩ := mmwdExtract_fields text fname b he
      rw [htd] at ht
      exact Option.noConfusion ht
  · intro a t ha hae htd hv
    exact mmwdExtract_isSome text fname a t ha hae htd hv

theorem c3_mandatory_fields_witness :
    nmwdExtract txNmwdNoAcct "a.pdf" = none
      ∧ nmwdExtract txNmwdFull "a.pdf" ≠ none
      ∧ mmwdExtract txMmwdNoTotal "b.pdf" = none
      ∧ mmwdExtract txMmwdFull "b.pdf" ≠ none :=
  ⟨(c3_mandatory_fields txNmwdNoAcct "a.pdf").1 (Or.inl (by decide)),
   (c3_mandatory_fields txNmwdFull "a.pdf").2.2.1 "123456" 50 (by decide) (by decide)
     (by decide) (by decide),
   (c3_mandatory_fields txMmwdNoTotal "b.pdf").2.2.2.2.1 (by decide),
   (c3_mandatory_fields txMmwdFull "b.pdf").2.2.2.2.2 "1234567" 5 (by decide)
     (by decide) (by decide) (by decide)⟩

/-- C4 counterexample: a text containing both districts' strong indicators
(via "NORTH MARIN" and "MARIN MUNICIPAL") is accepted by BOTH validity
checks, so classification does not return exactly the district whose issuer
name appears — both tie-break names appear and neither check rejects. -/
theorem c4_counterexample :
    hasStrongNmwd (pyUpper "NORTH MARIN MARIN MUNICIPAL") = true
      ∧ hasStrongMmwd (pyUpper "NORTH MARIN MARIN MUNICIPAL") = true
      ∧ isNmwdBill "NORTH MARIN MARIN MUNICIPAL" = true
      ∧ isMmwdBill "NORTH MARIN MARIN MUNICIPAL" = true := by
  decide

/-- C4 amended: with exactly one district's strong indicators present, that
district's check accepts and the other rejects.  With both present, each
check independently tests its own tie-break name ("NORTH MARIN" for
district A, "MARIN MUNICIPAL" for district B): the checks are not mutually
exclusive, and both accept when both names appear. -/
theorem c4_amended_classifier (text : String) :
    (hasStrongNmwd (pyUpper text) = true → hasStrongMmwd (pyUpper text) = false →
      isNmwdBill text = true ∧ isMmwdBill text = false)
      ∧ (hasStrongMmwd (pyUpper text) = true → hasStrongNmwd (pyUpper text) = false →
        isMmwdBill text = true ∧ isNmwdBill text = false)
      ∧ (hasStrongNmwd (pyUpper text) = true → hasStrongMmwd (pyUpper text) = true →
        isNmwdBill text = containsSub "NORTH MARIN" (pyUpper text)
          ∧ isMmwdBill text = containsSub "MARIN MUNICIPAL" (pyUpper text)) := by
  by_cases ht : text = ""
  · subst ht
    refine ⟨?_, ?_, ?_⟩ <;> intro h1 h2 <;>
      exact absurd h1 (by decide)
  · refine ⟨?_, ?_, ?_⟩ <;> intro h1 h2 <;>
      constructor <;> simp [isNmwdBill, isMmwdBill, ht, h1, h2]

theorem c4_amended_classifier_witness :
    (isNmwdBill "NORTH MARIN WATER DISTRICT bill" = true
        ∧ isMmwdBill "NORTH MARIN WATER DISTRICT bill" = false)
      ∧ (isMmwdBill "CORTE MADERA bill" = true
        ∧ isNmwdBill "CORTE MADERA bill" = false)
      ∧ (isNmwdBill "NORTH MARIN and CORTE MADERA"
            = containsSub "NORTH MARIN" (pyUpper "NORTH MARIN and CORTE MADERA")
        ∧ isMmwdBill "NORTH MARIN and CORTE MADERA"
            = containsSub "MARIN MUNICIPAL" (pyUpper "NORTH MARIN and CORTE MADERA")) :=
  ⟨(c4_amended_classifier "NORTH MARIN WATER DISTRICT bill").1 (by decide) (by decide),
   (c4_amended_classifier "CORTE MADERA bill").2.1 (by decide) (by decide),
   (c4_amended_classifier "NORTH MARIN and CORTE MADERA").2.2 (by decide) (by decide)⟩

/-- C5: tokens of the form `$1,234.56` parse to `1234.56` and tokens of the
form `(1,234.56)` to `-1234.56`: the dollar sign and thousands separators
are stripped and enclosing parentheses negate — on any line on which
NMWD's total-due scan finds such a token as its last currency token, in the
shared `_extract_currency` group post-processing used by MMWD, and
end-to-end through both districts' total-due extraction. -/
theorem c5_currency_parsing :
    (∀ (line : String) (m : MatchRes), lastItem (findAll moneyPat line) = some m →
      m.whole = "$1,234.56" → nmwdLineAmount line = some (1234.56 : ℚ))
      ∧ (∀ (line : String) (m : MatchRes), lastItem (findAll moneyPat line) = some m →
        m.whole = "(1,234.56)" → nmwdLineAmount line = some (-(1234.56 : ℚ)))
      ∧ parseCurrencyGroup "$1,234.56" = some (1234.56 : ℚ)
      ∧ parseCurrencyGroup "(1,234.56)" = some (-(1234.56 : ℚ))
      ∧ nmwdTotalDue "NORTH MARIN\nTOTAL DUE $1,234.56" = some (1234.56 : ℚ)
      ∧ nmwdTotalDue "NORTH MARIN\nTOTAL DUE (1,234.56)" = some (-(1234.56 : ℚ))
      ∧ extractCurrency "TOTAL DUE: $1,234.56" mmwdTotalPat = some (1234.56 : ℚ) := by
  have hq : (1234.56 : ℚ) = mkRat 123456 100 := by norm_num [Rat.mkRat_eq_div]
  refine ⟨?_, ?_, ?_, ?_, ?_, ?_, ?_⟩
  · intro line m h1 h2
    unfold nmwdLineAmount
    rw [h1]
    dsimp only
    rw [h2, hq]
    decide
  · intro line m h1 h2
    unfold nmwdLineAmount
    rw [h1]
    dsimp only
    rw [h2, hq]
    decide
  · rw [hq]; decide
  · rw [hq]; decide
  · rw [hq]; decide
  · rw [hq]; decide
  · rw [hq]; decide

theorem c5_currency_parsing_witness :
    nmwdLineAmount "TOTAL DUE $1,234.56" = some (1234.56 : ℚ)
      ∧ nmwdLineAmount "TOTAL DUE:(1,234.56)" = some (-(1234.56 : ℚ)) :=
  ⟨c5_currency_parsing.1 "TOTAL DUE $1,234.56" ⟨"$1,234.56", []⟩ (by decide) rfl,
   c5_currency_parsing.2.1 "TOTAL DUE:(1,234.56)" ⟨"(1,234.56)", []⟩ (by decide) rfl⟩

/-- C6 counterexample: an MMWD text in which the literal phrase
"Upon Receipt" appears AND the dated `Current Charges Due By` pattern
matches yields a record whose due date is the dated value, not
"Upon Receipt" — the sentinel does not override the dated pattern for the
MMWD extractor. -/
theorem c6_counterexample :
    containsSub "Upon Receipt" txMmwdBoth = true
      ∧ (mmwdExtract txMmwdBoth "b.pdf").map (fun b => b.due_date)
          = some "09/15/2025"
      ∧ ("09/15/2025" : String) ≠ "Upon Receipt" := by
  refine ⟨by decide, by decide, by decide⟩

/-- C6 amended: the sentinel override holds for the NMWD extractor (any
occurrence of "Upon Receipt" wins over the dated pattern); for the MMWD
extractor the dated `Current Charges Due By` pattern takes precedence and
"Upon Receipt" is only the fallback used when that pattern does not
match. -/
theorem c6_amended_upon_receipt :
    (∀ text fname b, nmwdExtract text fname = some b →
      containsSub "Upon Receipt" text = true → b.due_date = "Upon Receipt")
      ∧ (∀ text fname b, mmwdExtract text fname = some b →
        b.due_date = mmwdDueDate text)
      ∧ (∀ text, extractPattern text mmwdDuePat = none →
        mmwdDueDate text = "Upon Receipt")
      ∧ (∀ text d, extractPattern text mmwdDuePat = some d → d ≠ "" →
        mmwdDueDate text = d) := by
  refine ⟨?_, ?_, ?_, ?_⟩
  · intro text fname b hb hup
    obtain ⟨-, -, -, -, hdue⟩ := nmwdExtract_fields text fname b hb
    rw [hdue]
    unfold nmwdDueDate
    rw [if_pos hup]
    rfl
  · intro text fname b hb
    exact (mmwdExtract_fields text fname b hb).2.2.2.2
  · intro text h
    unfold mmwdDueDate
    rw [h]
    rfl
  · intro text d h hd
    unfold mmwdDueDate
    rw [h]
    unfold pyStrOr
    dsimp only
    rw [if_neg hd]

theorem c6_amended_upon_receipt_witness :
    recNmwdUpon.due_date = "Upon Receipt"
      ∧ recMmwdPlain.due_date = mmwdDueDate txMmwdFull
      ∧ mmwdDueDate txMmwdFull = "Upon Receipt"
      ∧ mmwdDueDate txMmwdBoth = "09/15/2025" :=
  ⟨c6_amended_upon_receipt.1 txNmwdUpon "a.pdf" recNmwdUpon (by decide) (by decide),
   c6_amended_upon_receipt.2.1 txMmwdFull "b.pdf" recMmwdPlain (by decide),
   c6_amended_upon_receipt.2.2.1 txMmwdFull (by decide),
   c6_amended_upon_receipt.2.2.2 txMmwdBoth "09/15/2025" (by decide) (by decide)⟩

theorem mrun_sound : ∀ (fuel : Nat) (re : RE) (l : List Char)
    (r : List Char × Caps), r ∈ mrun fuel re l → Matches re l r.1 r.2 := by
  intro fuel
  induction fuel with
  | zero => intro re l r h; simp [mrun] at h
  | succ fuel ih =>
    intro re l r h
    cases re with
    | eps =>
      simp [mrun] at h
      obtain ⟨h1, h2⟩ := Prod.mk.injEq _ _ _ _ ▸ h
      rw [show r = (l, []) from h]
      exact .eps
    | cls p =>
      cases l with
      | nil => simp [mrun] at h
      | cons c rest =>
        by_cases hp : p c = true
        · simp [mrun, hp] at h
          rw [show r = (rest, []) from h]
          exact .cls hp
        · simp [mrun, hp] at h
    | seq a b =>
      simp only [mrun, List.mem_flatMap, List.mem_map] at h
      obtain ⟨r1, hr1, r2, hr2, hr⟩ := h
      rw [← hr]
      exact .seqM (ih a l r1 hr1) (ih b r1.1 r2 hr2)
    | alt a b =>
      simp only [mrun, List.mem_append] at h
      rcases h with h | h
      · exact .altL (ih a l r h)
      · exact .altR (ih b l r h)
    | starG a =>
      simp only [mrun, List.mem_append, List.mem_flatMap, List.mem_map,
        List.mem_filter, List.mem_singleton] at h
      rcases h with ⟨r1, ⟨hr1, hlt⟩, r2, hr2, hr⟩ | h
      · rw [← hr]
        exact .starGCons (ih a l r1 hr1) (by simpa using hlt) (ih _ r1.1 r2 hr2)
      · rw [show r = (l, []) from h]
        exact .starGNil
    | starL a =>
      simp only [mrun, List.mem_cons, List.mem_flatMap, List.mem_map,
        List.mem_filter] at h
      rcases h with h | ⟨r1, ⟨hr1, hlt⟩, r2, hr2, hr⟩
      · rw [show r = (l, []) from h]
        exact .starLNil
      · rw [← hr]
        exact .starLCons (ih a l r1 hr1) (by simpa using hlt) (ih _ r1.1 r2 hr2)
    | optG a =>
      simp only [mrun, List.mem_append, List.mem_singleton] at h
      rcases h with h | h
      · exact .optSome (ih a l r h)
      · rw [show r = (l, []) from h]
        exact .optNone
    | group k a =>
      simp only [mrun, List.mem_map] at h
      obtain ⟨r1, hr1, hr⟩ := h
      rw [← hr]
      exact .groupM (ih a l r1 hr1)
    | look a =>
      by_cases he : (mrun fuel a l).isEmpty
      · simp [mrun, he] at h
      · simp only [mrun, he, if_false, List.mem_singleton, Bool.false_eq_true] at h
        have hnil : mrun fuel a l ≠ [] := by
          intro hn
          exact he (by rw [hn]; rfl)
        obtain ⟨r0, hr0⟩ := List.exists_mem_of_ne_nil _ hnil
        rw [show r = (l, []) from h]
        exact .lookM (ih a l r0 hr0)

theorem matches_noGroups {re : RE} {l l' : List Char} {c : Caps}
    (h : Matches re l l' c) (hg : noGroups re = true) : c = [] := by
  induction h with
  | eps => rfl
  | cls _ => rfl
  | seqM h1 h2 ih1 ih2 =>
    rw [noGroups, Bool.and_eq_true] at hg
    rw [ih1 hg.1, ih2 hg.2]
    rfl
  | altL h1 ih1 =>
    rw [noGroups, Bool.and_eq_true] at hg
    exact ih1 hg.1
  | altR h1 ih1 =>
    rw [noGroups, Bool.and_eq_true] at hg
    exact ih1 hg.2
  | starGNil => rfl
  | starGCons h1 hlt h2 ih1 ih2 =>
    rw [noGroups] at hg
    rw [ih1 hg, ih2 hg]
    rfl
  | starLNil => rfl
  | starLCons h1 hlt h2 ih1 ih2 =>
    rw [noGroups] at hg
    rw [ih1 hg, ih2 hg]
    rfl
  | optSome h1 ih1 =>
    rw [noGroups] at hg
    exact ih1 hg
  | optNone => rfl
  | groupM h1 ih1 => exact absurd hg (by rw [noGroups]; exact Bool.noConfusion)
  | lookM h1 ih1 => rfl

theorem matches_cls_inv {p : Char → Bool} {l l' : List Char} {c : Caps}
    (h : Matches (.cls p) l l' c) :
    ∃ ch, l = ch :: l' ∧ p ch = true ∧ c = [] := by
  cases h with
  | cls hp => exact ⟨_, rfl, hp, rfl⟩

theorem matches_starG_cls_aux {re : RE} {l l' : List Char} {c : Caps}
    (h : Matches re l l' c) :
    ∀ p, re = .starG (.cls p) → ∃ pre, l = pre ++ l' ∧ pre.all p = true := by
  induction h with
  | starGNil => intro p hre; exact ⟨[], rfl, rfl⟩
  | starGCons h1 hlt h2 ih1 ih2 =>
    intro p hre
    have ha := RE.starG.inj hre
    obtain ⟨ch, hl, hch, -⟩ := matches_cls_inv (ha ▸ h1)
    obtain ⟨pre2, hl1, hall⟩ := ih2 p (by rw [ha])
    refine ⟨ch :: pre2, ?_, ?_⟩
    · rw [hl, hl1]
      rfl
    · simp [List.all_cons, hch, hall]
  | _ => intro p hre; exact absurd hre (by intro hh; cases hh)

theorem matches_starG_cls {p : Char → Bool} {l l' : List Char} {c : Caps}
    (h : Matches (.starG (.cls p)) l l' c) :
    ∃ pre, l = pre ++ l' ∧ pre.all p = true :=
  matches_starG_cls_aux h p rfl

theorem matches_repN_cls {p : Char → Bool} :
    ∀ (n : Nat) (l l' : List Char) (c : Caps),
      Matches (repN n (.cls p)) l l' c →
      ∃ pre, l = pre ++ l' ∧ pre.length = n ∧ pre.all p = true
  | 0, l, l', c, h => by
    cases h
    exact ⟨[], rfl, rfl, rfl⟩
  | n + 1, l, l', c, h => by
    rw [repN] at h
    cases h with
    | seqM h1 h2 =>
      obtain ⟨ch, hl, hch, -⟩ := matches_cls_inv h1
      obtain ⟨pre2, hl1, hlen, hall⟩ := matches_repN_cls n _ _ _ h2
      refine ⟨ch :: pre2, ?_, ?_, ?_⟩
      · rw [hl, hl1]
        rfl
      · rw [List.length_cons, hlen]
      · simp [List.all_cons, hch, hall]

theorem matches_acct_body {l l' : List Char} {c : Caps}
    (h : Matches (repAtLeast 6 (.cls isAcctChar)) l l' c) :
    ∃ pre, l = pre ++ l' ∧ 6 ≤ pre.length ∧ pre.all isAcctChar = true := by
  rw [repAtLeast] at h
  cases h with
  | seqM h1 h2 =>
    obtain ⟨pre1, hl, hlen, hall1⟩ := matches_repN_cls 6 _ _ _ h1
    obtain ⟨pre2, hl1, hall2⟩ := matches_starG_cls h2
    refine ⟨pre1 ++ pre2, ?_, ?_, ?_⟩
    · rw [hl, hl1, List.append_assoc]
    · rw [List.length_append, hlen]
      omega
    · simp only [List.all_append, hall1, hall2]
      rfl

theorem capBetween_append (pre l' : List Char) :
    capBetween (pre ++ l') l' = String.mk pre := by
  unfold capBetween
  rw [List.length_append, Nat.add_sub_cancel, List.take_left]

theorem nmwdAcctGroup_caps {l4 l5 : List Char} {cG : Caps}
    (hm : Matches (.group 1 (repAtLeast 6 (.cls isAcctChar))) l4 l5 cG) :
    ∀ s, (1, s) ∈ cG → 6 ≤ s.length ∧ s.toList.all isAcctChar = true := by
  cases hm with
  | groupM hb =>
    intro s hs
    rw [matches_noGroups hb (by rfl)] at hs
    simp only [List.nil_append, List.mem_singleton, Prod.mk.injEq, true_and] at hs
    obtain ⟨pre, hl4, hlen, hall⟩ := matches_acct_body hb
    rw [hs, hl4, capBetween_append]
    exact ⟨hlen, hall⟩

theorem nmwdAcctPat1_caps {l l' : List Char} {c : Caps}
    (h : Matches nmwdAcctPat1 l l' c) :
    ∀ s, (1, s) ∈ c → 6 ≤ s.length ∧ s.toList.all isAcctChar = true := by
  have hp : nmwdAcctPat1 = .seq (litCI "ACCOUNT") (.seq (.optG (litCI "/CUSTOMER"))
      (.seq (litCI " NUMBER") (.seq colonSpaceStar
        (.seq (.group 1 (repAtLeast 6 (.cls isAcctChar))) .eps)))) := rfl
  rw [hp] at h
  cases h with
  | seqM hA h =>
    cases h with
    | seqM hB h =>
      cases h with
      | seqM hC h =>
        cases h with
        | seqM hD h =>
          cases h with
          | seqM hG hE =>
            intro s hs
            cases hE
            rw [matches_noGroups hA (by rfl), matches_noGroups hB (by rfl),
              matches_noGroups hC (by rfl), matches_noGroups hD (by rfl)] at hs
            simp only [List.nil_append, List.append_nil] at hs
            exact nmwdAcctGroup_caps hG s hs

theorem nmwdAcctPat2_caps {l l' : List Char} {c : Caps}
    (h : Matches nmwdAcctPat2 l l' c) :
    ∀ s, (1, s) ∈ c → 6 ≤ s.length ∧ s.toList.all isAcctChar = true := by
  have hp : nmwdAcctPat2 = .seq (litCI "Customer Number") (.seq colonSpaceStar
      (.seq (.group 1 (repAtLeast 6 (.cls isAcctChar))) .eps)) := rfl
  rw [hp] at h
  cases h with
  | seqM hA h =>
    cases h with
    | seqM hD h =>
      cases h with
      | seqM hG hE =>
        intro s hs
        cases hE
        rw [matches_noGroups hA (by rfl), matches_noGroups hD (by rfl)] at hs
        simp only [List.nil_append, List.append_nil] at hs
        exact nmwdAcctGroup_caps hG s hs

theorem matchHere_sound {re : RE} {ls : List Char} {m : MatchRes}
    (h : matchHere re ls = some m) :
    ∃ r ∈ mrun (fuelFor re ls) re ls, m.caps = r.2 := by
  unfold matchHere at h
  cases hl : mrun (fuelFor re ls) re ls with
  | nil => rw [hl] at h; cases h
  | cons r t =>
    rw [hl] at h
    refine ⟨r, List.mem_cons_self r t, ?_⟩
    rw [← Option.some.inj h]

theorem searchGo_sound {re : RE} {m : MatchRes} :
    ∀ ls : List Char, searchGo re ls = some m →
      ∃ ls0 r, r ∈ mrun (fuelFor re ls0) re ls0 ∧ m.caps = r.2
  | [], h => by
    unfold searchGo at h
    obtain ⟨r, hr, hc⟩ := matchHere_sound h
    exact ⟨[], r, hr, hc⟩
  | c :: rest, h => by
    unfold searchGo at h
    cases hm : matchHere re (c :: rest) with
    | some m0 =>
      rw [hm] at h
      obtain ⟨r, hr, hc⟩ := matchHere_sound hm
      exact ⟨c :: rest, r, hr, by rw [← Option.some.inj h]; exact hc⟩
    | none =>
      rw [hm] at h
      exact searchGo_sound rest h

theorem reSearch_caps_sound {re : RE} {s : String} {m : MatchRes}
    (h : reSearch re s = some m) : ∃ ls0 l1, Matches re ls0 l1 m.caps := by
  obtain ⟨ls0, r, hr, hc⟩ := searchGo_sound s.toList h
  rw [hc]
  exact ⟨ls0, r.1, mrun_sound _ re ls0 r hr⟩

theorem groupN_mem {m : MatchRes} {k : Nat} {g : String}
    (h : m.groupN k = some g) : (k, g) ∈ m.caps := by
  unfold MatchRes.groupN at h
  cases hf : m.caps.find? (fun p => p.1 = k) with
  | none => rw [hf] at h; cases h
  | some p =>
    rw [hf] at h
    have hm := List.mem_of_find?_eq_some hf
    have hpred0 := List.find?_some hf
    have hpred : p.1 = k := by simpa using hpred0
    have hg : p.2 = g := Option.some.inj h
    have hpg : (k, g) = p := by
      rw [← hg, ← hpred]
    rw [hpg]
    exact hm

theorem dropWhile_eq_self_of_all {p : Char → Bool} :
    ∀ l : List Char, l.all (fun c => !p c) = true → l.dropWhile p = l
  | [], _ => rfl
  | c :: rest, h => by
    rw [List.all_cons, Bool.and_eq_true] at h
    have hpc : p c = false := by
      have h1 := h.1
      revert h1
      cases p c <;> simp
    simp [List.dropWhile_cons, hpc]

theorem pyStrip_eq_self (s : String)
    (h : s.toList.all (fun c => !isSpacePy c) = true) : pyStrip s = s := by
  unfold pyStrip
  rw [dropWhile_eq_self_of_all _ h,
    dropWhile_eq_self_of_all _ (by simpa [List.all_reverse] using h),
    List.reverse_reverse]
  rcases s with ⟨l⟩
  rfl

theorem acct_not_space (c : Char) (h : isAcctChar c = true) :
    (!isSpacePy c) = true := by
  by_contra hs
  have hs' : isSpacePy c = true := by
    revert hs
    cases isSpacePy c <;> simp
  rw [isSpacePy] at hs'
  simp only [Bool.or_eq_true, decide_eq_true_eq] at hs'
  rcases hs' with ((((h1 | h1) | h1) | h1) | h1) | h1 <;> subst h1 <;>
    exact absurd h (by decide)

theorem extractPattern_len6 (text v : String) (pat : RE)
    (hcaps : ∀ (l l' : List Char) (c : Caps), Matches pat l l' c →
      ∀ s, (1, s) ∈ c → 6 ≤ s.length ∧ s.toList.all isAcctChar = true)
    (h : extractPattern text pat = some v) : 6 ≤ v.length := by
  unfold extractPattern at h
  by_cases ht : text = ""
  · rw [if_pos ht] at h
    cases h
  · rw [if_neg ht] at h
    cases hm : reSearch pat text with
    | none => rw [hm] at h; cases h
    | some m =>
      rw [hm] at h
      dsimp only at h
      cases hg : m.groupN 1 with
      | none => rw [hg] at h; cases h
      | some g =>
        rw [hg] at h
        dsimp only at h
        obtain ⟨ls0, l1, hmt⟩ := reSearch_caps_sound hm
        obtain ⟨hlen, hall⟩ := hcaps ls0 l1 m.caps hmt g (groupN_mem hg)
        have hstrip : pyStrip g = g := by
          refine pyStrip_eq_self g ?_
          rw [List.all_eq_true] at hall ⊢
          intro c hc
          exact acct_not_space c (hall c hc)
        rw [← Option.some.inj h, hstrip]
        exact hlen

theorem nmwdAccount_min6 (text v : String) (h : nmwdAccount text = some v) :
    6 ≤ v.length := by
  unfold nmwdAccount pyOrS at h
  cases h1 : extractPattern text nmwdAcctPat1 with
  | some s =>
    rw [h1] at h
    dsimp only at h
    by_cases hse : s = ""
    · rw [if_pos hse] at h
      exact extractPattern_len6 text v nmwdAcctPat2 (fun l l' c hm => nmwdAcctPat2_caps hm) h
    · rw [if_neg hse] at h
      rw [← Option.some.inj h]
      exact extractPattern_len6 text s nmwdAcctPat1 (fun l l' c hm => nmwdAcctPat1_caps hm) h1
  | none =>
    rw [h1] at h
    dsimp only at h
    exact extractPattern_len6 text v nmwdAcctPat2 (fun l l' c hm => nmwdAcctPat2_caps hm) h

/-- C7 counterexample: the MMWD account pattern `Customer Number:?\s*(\d+)`
has no minimum length, so a label followed by the 3-character token `123`
still yields an account number (and a full record). -/
theorem c7_counterexample :
    (mmwdExtract txMmwdShortAcct "c.pdf").map (fun b => b.account_number)
        = some "123"
      ∧ ("123" : String).length < 6 := by
  refine ⟨by decide, by decide⟩

/-- C7 amended: the NMWD extractor tries its two account label patterns in
order (first success wins) and each pattern only matches tokens of at least
6 characters, so every NMWD account number has length at least 6; the MMWD
extractor uses the single pattern `Customer Number:?\s*(\d+)` with NO
minimum length, accepting any nonempty digit run. -/
theorem c7_amended_account_patterns :
    (∀ text v, extractPattern text nmwdAcctPat1 = some v → v ≠ "" →
      nmwdAccount text = some v)
      ∧ (∀ text, extractPattern text nmwdAcctPat1 = none →
        nmwdAccount text = extractPattern text nmwdAcctPat2)
      ∧ (∀ text v, nmwdAccount text = some v → 6 ≤ v.length)
      ∧ nmwdAccount "NORTH MARIN\nACCOUNT NUMBER: AB123" = none
      ∧ nmwdAccount "NORTH MARIN\nACCOUNT NUMBER: AB1234" = some "AB1234"
      ∧ mmwdAccount txMmwdShortAcct = some "123" := by
  refine ⟨?_, ?_, nmwdAccount_min6, by decide, by decide, by decide⟩
  · intro text v h1 hne
    unfold nmwdAccount pyOrS
    rw [h1]
    dsimp only
    rw [if_neg hne]
  · intro text h1
    unfold nmwdAccount pyOrS
    rw [h1]

theorem c7_amended_account_patterns_witness :
    nmwdAccount "NORTH MARIN\nACCOUNT NUMBER: AB1234X" = some "AB1234X"
      ∧ nmwdAccount "NORTH MARIN\nCustomer Number: 654321" =
          extractPattern "NORTH MARIN\nCustomer Number: 654321" nmwdAcctPat2
      ∧ 6 ≤ ("AB1234X" : String).length :=
  ⟨c7_amended_account_patterns.1 "NORTH MARIN\nACCOUNT NUMBER: AB1234X" "AB1234X"
      (by decide) (by decide),
   c7_amended_account_patterns.2.1 "NORTH MARIN\nCustomer Number: 654321" (by decide),
   c7_amended_account_patterns.2.2.1 "NORTH MARIN\nACCOUNT NUMBER: AB1234X" "AB1234X"
      (by decide)⟩

theorem toList_append (a b : String) : (a ++ b).toList = a.toList ++ b.toList :=
  rfl

theorem stringMk_toList (s : String) : String.mk s.toList = s := by
  rcases s with ⟨l⟩
  rfl

theorem digitChar_isDigit (k : Nat) (hk : k < 10) :
    (Char.ofNat (48 + k)).isDigit = true := by
  interval_cases k <;> decide

theorem pad2_all_digit (n : Nat) : (pad2 n).toList.all Char.isDigit = true := by
  have h1 := digitChar_isDigit (n / 10 % 10) (Nat.mod_lt _ (by norm_num))
  have h2 := digitChar_isDigit (n % 10) (Nat.mod_lt _ (by norm_num))
  simp [pad2, h1, h2]

theorem fmtYYMMDD_all_digit (y m d : Nat) :
    (fmtYYMMDD y m d).toList.all Char.isDigit = true := by
  rw [show (fmtYYMMDD y m d).toList
      = ((pad2 (y % 100)).toList ++ (pad2 m).toList) ++ (pad2 d).toList from rfl]
  rw [List.all_append, List.all_append, pad2_all_digit, pad2_all_digit,
    pad2_all_digit]
  rfl

theorem legal_of_digit (c : Char) (h : c.isDigit = true) :
    isLegalFilenameChar c = true := by
  simp [isLegalFilenameChar, Char.isAlphanum, h]

theorem all_legal_of_all_digit (l : List Char) (h : l.all Char.isDigit = true) :
    l.all isLegalFilenameChar = true := by
  rw [List.all_eq_true] at h ⊢
  intro c hc
  exact legal_of_digit c (h c hc)

theorem sanitize_all_legal (s : String) :
    (sanitizeFilename s).toList.all isLegalFilenameChar = true := by
  show (s.toList.filter isLegalFilenameChar).all isLegalFilenameChar = true
  rw [List.all_eq_true]
  intro c hc
  exact (List.mem_filter.mp hc).2

theorem sanitize_append_of_legal (p rest : String)
    (hp : p.toList.all isLegalFilenameChar = true) :
    sanitizeFilename (p ++ rest)
      = String.mk (p.toList ++ rest.toList.filter isLegalFilenameChar) := by
  unfold sanitizeFilename
  rw [toList_append, List.filter_append,
    List.filter_eq_self.mpr (fun a ha => (List.all_eq_true.mp hp) a ha)]

theorem strTake_mk_append (pl ql : List Char) :
    strTake (String.mk (pl ++ ql)) pl.length = String.mk pl := by
  unfold strTake
  rw [show (String.mk (pl ++ ql)).toList = pl ++ ql from rfl, List.take_left]

theorem generateFilename_structure (b : BillData) :
    ∃ suffix : String,
      generateFilename b
        = sanitizeFilename (filenameDatePrefix b.bill_date ++ suffix) := by
  unfold generateFilename
  dsimp only
  by_cases h1 : b.district = "North Marin"
  · exact ⟨" Account #" ++ b.account_number ++ ".pdf",
      by rw [if_pos h1, String.append_assoc, String.append_assoc,
        String.append_assoc]⟩
  · rw [if_neg h1]
    by_cases h2 : b.district = "Marin Municipal"
    · exact ⟨" MMWD " ++ b.account_number ++ ".pdf",
        by rw [if_pos h2, String.append_assoc, String.append_assoc,
          String.append_assoc]⟩
    · exact ⟨" " ++ b.account_number ++ ".pdf",
        by rw [if_neg h2, String.append_assoc, String.append_assoc,
          String.append_assoc]⟩

theorem filenamePrefix_take (b : BillData) :
    strTake (generateFilename b) 6 = filenameDatePrefix b.bill_date := by
  obtain ⟨suf, hgen⟩ := generateFilename_structure b
  have hdig : (filenameDatePrefix b.bill_date).toList.all Char.isDigit = true := by
    unfold filenameDatePrefix
    cases hp : parseMDY4 b.bill_date with
    | none => decide
    | some t =>
      rcases t with ⟨y, m, d⟩
      exact fmtYYMMDD_all_digit y m d
  have hlegal := all_legal_of_all_digit _ hdig
  have hlen : (filenameDatePrefix b.bill_date).toList.length = 6 := by
    unfold filenameDatePrefix
    cases hp : parseMDY4 b.bill_date with
    | none => decide
    | some t =>
      rcases t with ⟨y, m, d⟩
      rfl
  rw [hgen, sanitize_append_of_legal _ _ hlegal, ← hlen, strTake_mk_append,
    stringMk_toList]

/-- C8: filename generation is a pure function of the record.  When
`bill_date` parses as `MM/DD/YYYY` the filename starts with the six-digit
`YYMMDD` prefix (for `09/15/2025` the prefix is `250915`); when it does not
parse (including the empty string) the prefix is the literal `000000`; a
district-specific suffix containing the account number is appended; and
every character of the result is alphanumeric, a space, `#`, `.`, `-`, or
`_`. -/
theorem c8_filename_generation (b : BillData) :
    (∀ y m d, parseMDY4 b.bill_date = some (y, m, d) →
      strTake (generateFilename b) 6 = fmtYYMMDD y m d)
      ∧ (parseMDY4 b.bill_date = none → strTake (generateFilename b) 6 = "000000")
      ∧ (generateFilename b).toList.all isLegalFilenameChar = true
      ∧ (b.district = "North Marin" → generateFilename b
          = sanitizeFilename (filenameDatePrefix b.bill_date
              ++ " Account #" ++ b.account_number ++ ".pdf"))
      ∧ (b.district = "Marin Municipal" → generateFilename b
          = sanitizeFilename (filenameDatePrefix b.bill_date
              ++ " MMWD " ++ b.account_number ++ ".pdf"))
      ∧ parseMDY4 "09/15/2025" = some (2025, 9, 15)
      ∧ fmtYYMMDD 2025 9 15 = "250915"
      ∧ filenameDatePrefix "" = "000000" := by
  refine ⟨?_, ?_, ?_, ?_, ?_, by decide, by decide, by decide⟩
  · intro y m d hp
    rw [filenamePrefix_take]
    unfold filenameDatePrefix
    rw [hp]
  · intro hp
    rw [filenamePrefix_take]
    unfold filenameDatePrefix
    rw [hp]
  · obtain ⟨suf, hgen⟩ := generateFilename_structure b
    rw [hgen]
    exact sanitize_all_legal _
  · intro h1
    unfold generateFilename
    dsimp only
    rw [if_pos h1, String.append_assoc, String.append_assoc]
  · intro h2
    unfold generateFilename
    dsimp only
    by_cases h1 : b.district = "North Marin"
    · rw [h1] at h2
      exact absurd h2 (by decide)
    · rw [if_neg h1, if_pos h2]

theorem c8_filename_generation_witness :
    strTake (generateFilename billWitness) 6 = fmtYYMMDD 2025 9 15
      ∧ generateFilename billWitness
          = sanitizeFilename (filenameDatePrefix billWitness.bill_date
              ++ " Account #" ++ billWitness.account_number ++ ".pdf") :=
  ⟨(c8_filename_generation billWitness).1 2025 9 15 (by decide),
   (c8_filename_generation billWitness).2.2.2.1 (by decide)⟩
